import Mathlib

/-!
Verification development for the CargoSys LoRaWAN tracker repository.

The repository's core (per the specification) is the deterministic
synthetic-telemetry generator `generateMockData` in `src/mock/mockData.js`
together with the reduction pipeline (`downsample` in the chart helper
module, `chunkByImpact` in `DeviceMap.jsx`, `toCsv` in `Track.jsx`).

Shallow-embedding conventions, fixed once here:

* JavaScript numbers are modelled as exact rationals (`ℚ`); IEEE-754
  double rounding is not modelled.  Every concrete statement proved below
  was chosen to be robust under this modelling (the decisive quantities
  are far from any rounding boundary).
* `Date` values are modelled as their millisecond timestamps (`Int`).
  The source stores `ts` as the ISO string `d.toISOString()` and re-parses
  it for sorting/filtering; this round-trip is the identity on integral
  millisecond timestamps, so the model keeps the integer and serialises
  on demand (`toIsoString`).  The runtime timezone is assumed to be UTC
  (the source uses the environment-dependent `getHours`/`getMinutes`/
  `getDay`).
* `Math.round` is round-half-towards-positive-infinity (`jsRound`),
  `Number(x.toFixed(f))` is decimal rounding (`toFixedQ`), matching
  the ECMAScript definitions on exact values.
* The transcendental functions used by the source (`Math.sin`, `Math.cos`,
  `Math.sqrt`) are a parameter of the embedding (structure `RealFns`):
  every general theorem holds for any choice of these functions, and
  concrete statements instantiate with `approxFns`, rational
  approximations (Taylor series and Newton iteration, with `Math.PI`
  taken as the exact binary64 constant) accurate to far more digits than
  any rounding decision in the generator requires.
* The generator's PRNG state (the accumulator `t` of `mulberry32`) is a
  natural number reduced modulo 2^32; JavaScript's `Math.imul`, `^`,
  `|`, `>>>` on 32-bit values agree with these `Nat` operations modulo
  2^32.
-/

namespace Cargo

set_option maxRecDepth 100000

/-! ### JavaScript numeric primitives -/

/-- JavaScript `Math.round`: round half towards positive infinity.
(`Rat.floor` rather than `⌊·⌋` so that concrete statements evaluate by
`decide`; `jsRound_eq` bridges to the floor of the order theory.) -/
def jsRound (x : ℚ) : Int := Rat.floor (x + 1/2)

theorem jsRound_eq (x : ℚ) : jsRound x = ⌊x + 1/2⌋ := by
  rw [jsRound, Rat.floor_def', Rat.floor_def]

/-- JavaScript `Number(x.toFixed(f))`: decimal rounding to `f` digits
(ECMAScript `toFixed` picks the closer `n / 10^f`, ties to the larger
`n`, which on exact values is floor of `x * 10^f + 1/2`). -/
def toFixedQ (f : Nat) (x : ℚ) : ℚ := (jsRound (x * (10 : ℚ)^f) : ℚ) / (10 : ℚ)^f

/-- Source `clamp(n, a, b) = Math.max(a, Math.min(b, n))`. -/
def clampQ (n a b : ℚ) : ℚ := max a (min b n)

theorem jsRound_le_jsRound {x y : ℚ} (h : x ≤ y) : jsRound x ≤ jsRound y := by
  rw [jsRound_eq, jsRound_eq]
  exact Int.floor_le_floor (by linarith)

theorem toFixedQ_le_toFixedQ {f : Nat} {x y : ℚ} (h : x ≤ y) :
    toFixedQ f x ≤ toFixedQ f y := by
  have hp : (0 : ℚ) < (10 : ℚ)^f := by positivity
  have h2 : jsRound (x * (10 : ℚ)^f) ≤ jsRound (y * (10 : ℚ)^f) :=
    jsRound_le_jsRound (mul_le_mul_of_nonneg_right h hp.le)
  unfold toFixedQ
  gcongr

theorem clampQ_le {n a b : ℚ} (hab : a ≤ b) : clampQ n a b ≤ b := by
  simp only [clampQ, max_le_iff]
  exact ⟨hab, min_le_left _ _⟩

theorem le_clampQ {n a b : ℚ} : a ≤ clampQ n a b := le_max_left _ _

theorem clampQ_mem {n a b : ℚ} (hab : a ≤ b) :
    a ≤ clampQ n a b ∧ clampQ n a b ≤ b := ⟨le_clampQ, clampQ_le hab⟩

/-! ### The seeded PRNG (`mulberry32`) and the string hash -/

/-- 2^32, the modulus of all 32-bit operations in the source. -/
def m32 : Nat := 4294967296

/-- Accumulator update of `mulberry32`: `t += 0x6D2B79F5` reduced mod 2^32
(the JavaScript accumulator grows unboundedly but every use converts it
to 32 bits, so reducing eagerly is equivalent). -/
def mb1 (s : Nat) : Nat := (s + 0x6D2B79F5) % m32

/-- `r = Math.imul(t ^ (t >>> 15), 1 | t)` of `mulberry32`. -/
def mb2 (t : Nat) : Nat := ((t ^^^ (t >>> 15)) * (t ||| 1)) % m32

/-- `Math.imul(r ^ (r >>> 7), 61 | r)` of `mulberry32`. -/
def mb3 (r1 : Nat) : Nat := ((r1 ^^^ (r1 >>> 7)) * (r1 ||| 61)) % m32

/-- `r ^= r + Math.imul(r ^ (r >>> 7), 61 | r)` of `mulberry32`. -/
def mb4 (r1 : Nat) : Nat := r1 ^^^ ((r1 + mb3 r1) % m32)

/-- The 32-bit output `(r ^ (r >>> 14)) >>> 0` of one `mulberry32` call. -/
def mulberryOut (s : Nat) : Nat :=
  mb4 (mb2 (mb1 s)) ^^^ (mb4 (mb2 (mb1 s)) >>> 14)

/-- One call of the closure returned by `mulberry32` (mockData.js).
Input is the accumulator `t`; output is the sample in `[0, 1)` (the
division by 4294967296) together with the updated accumulator. -/
def mulberryStep (s : Nat) : ℚ × Nat := ((mulberryOut s : ℚ) / (m32 : ℚ), mb1 s)

/-- `hashStringToSeed` (FNV-1a over the UTF-16 code units; the tracking
codes of interest are ASCII, where `Char.toNat` is the code unit). -/
def hashStringToSeed (str : String) : Nat :=
  str.foldl (fun h c => ((h ^^^ c.toNat) % m32 * 16777619) % m32) 2166136261

theorem m32_pos : 0 < m32 := by norm_num [m32]

theorem xor_lt_m32 {x y : Nat} (hx : x < m32) (hy : y < m32) : (x ^^^ y) < m32 := by
  have h : m32 = 2^32 := by norm_num [m32]
  rw [h] at hx hy ⊢
  exact Nat.xor_lt_two_pow hx hy

theorem mb4_lt {r1 : Nat} (h : r1 < m32) : mb4 r1 < m32 :=
  xor_lt_m32 h (Nat.mod_lt _ m32_pos)

theorem mulberryOut_lt (s : Nat) : mulberryOut s < m32 := by
  have h2 : mb2 (mb1 s) < m32 := Nat.mod_lt _ m32_pos
  have h4 : mb4 (mb2 (mb1 s)) < m32 := mb4_lt h2
  have hsr : mb4 (mb2 (mb1 s)) >>> 14 ≤ mb4 (mb2 (mb1 s)) := by
    rw [Nat.shiftRight_eq_div_pow]
    exact Nat.div_le_self _ _
  exact xor_lt_m32 h4 (lt_of_le_of_lt hsr h4)

theorem mulberryStep_val_nonneg (s : Nat) : 0 ≤ (mulberryStep s).1 := by
  unfold mulberryStep
  positivity

theorem mulberryStep_val_lt_one (s : Nat) : (mulberryStep s).1 < 1 := by
  unfold mulberryStep
  simp only
  rw [div_lt_one (by norm_num [m32])]
  exact_mod_cast mulberryOut_lt s

/-! ### Date helpers (UTC; timestamps in milliseconds) -/

/-- `d.getHours()` (UTC model). -/
def getHours (ms : Int) : Int := (ms.ediv 3600000).emod 24

/-- `d.getMinutes()` (UTC model). -/
def getMinutes (ms : Int) : Int := (ms.ediv 60000).emod 60

/-- `ts.getHours() * 60 + ts.getMinutes()` as used by `generateImpactG`. -/
def minuteOfDay (ms : Int) : Int := getHours ms * 60 + getMinutes ms

/-- `Math.floor(ts.getTime() / (24 * 3600 * 1000))` (humidity rain cycle). -/
def dayIndex (ms : Int) : Int := ms.ediv 86400000

/-- `isWeekend`: `d.getDay()` is 0 (Sunday) or 6 (Saturday); day 0 of the
epoch was a Thursday (= 4). -/
def isWeekend (ms : Int) : Bool :=
  let day := (ms.ediv 86400000 + 4).emod 7
  day == 0 || day == 6

/-- `hourOfDay(d) = d.getHours() + d.getMinutes() / 60`. -/
def hourOfDay (ms : Int) : ℚ := (getHours ms : ℚ) + (getMinutes ms : ℚ) / 60

/-- `addMinutes(date, mins)` for integer minutes. -/
def addMinutesMs (ms mins : Int) : Int := ms + mins * 60000

/-- `minutesBetween(a, b) = Math.max(0, Math.round((b - a) / 60000))`. -/
def minutesBetween (a b : Int) : Int := max 0 (jsRound (((b - a : Int) : ℚ) / 60000))

/-! ### The transcendental functions of the source, as a parameter

The source calls `Math.sin`, `Math.cos`, `Math.sqrt` only through the
following shapes.  The embedding abstracts them; general theorems hold
for every instantiation. -/

/-- Abstract real-function interface consumed by the generator.
`sin2pi u` models `Math.sin(2 * Math.PI * u)`, `cos2pi u` models
`Math.cos(2 * Math.PI * u)`, `cosDeg d` models `Math.cos(deg2rad(d))`,
`sqrtQ q` models `Math.sqrt(q)`. -/
structure RealFns where
  sin2pi : ℚ → ℚ
  cos2pi : ℚ → ℚ
  cosDeg : ℚ → ℚ
  sqrtQ : ℚ → ℚ

/-- `Math.PI`, the exact binary64 value (884279719003555 / 2^48). -/
def piA : ℚ := 884279719003555 / 281474976710656

/-- Truncation of intermediate results to 15 decimal digits, used by the
rational approximations below to keep the arithmetic bounded. -/
def trunc15 (x : ℚ) : ℚ := toFixedQ 15 x

/-- Taylor polynomial for `cos` up to degree 16 (inputs are at most π,
giving error far below 1e-10). -/
def cosTaylor (x0 : ℚ) : ℚ :=
  let x := trunc15 x0
  let x2 := x * x
  let t1 := x2 / 2
  let t2 := t1 * x2 / 12
  let t3 := t2 * x2 / 30
  let t4 := t3 * x2 / 56
  let t5 := t4 * x2 / 90
  let t6 := t5 * x2 / 132
  let t7 := t6 * x2 / 182
  let t8 := t7 * x2 / 240
  trunc15 (1 - t1 + t2 - t3 + t4 - t5 + t6 - t7 + t8)

/-- Taylor polynomial for `sin` up to degree 19. -/
def sinTaylor (x0 : ℚ) : ℚ :=
  let x := trunc15 x0
  let x2 := x * x
  let t1 := x * x2 / 6
  let t2 := t1 * x2 / 20
  let t3 := t2 * x2 / 42
  let t4 := t3 * x2 / 72
  let t5 := t4 * x2 / 110
  let t6 := t5 * x2 / 156
  let t7 := t6 * x2 / 210
  let t8 := t7 * x2 / 272
  let t9 := t8 * x2 / 342
  trunc15 (x - t1 + t2 - t3 + t4 - t5 + t6 - t7 + t8 - t9)

/-- Newton iteration for the square root, intermediate results truncated
to 15 decimal digits. -/
def sqrtNewton : Nat → ℚ → ℚ → ℚ
  | 0, _, x => x
  | n+1, q, x => if x = 0 then 0 else sqrtNewton n q (trunc15 ((x + q / x) / 2))

/-- Rational approximation of `Math.sqrt` (24 Newton steps from
`(q + 1) / 2`; ample for the magnitudes appearing in the generator). -/
def sqrtA (q : ℚ) : ℚ :=
  if q ≤ 0 then 0 else sqrtNewton 24 q (trunc15 ((q + 1) / 2))

/-- Concrete instantiation of `RealFns` used in all concrete statements.
For `sin2pi`/`cos2pi` the argument is first reduced modulo 1 into
`[-1/2, 1/2)` (the exact periodicity), then the Taylor polynomial is
applied to `2π` times it. -/
def approxFns : RealFns where
  sin2pi := fun u => sinTaylor (2 * piA * (u - (Rat.floor (u + 1/2) : ℚ)))
  cos2pi := fun u => cosTaylor (2 * piA * (u - (Rat.floor (u + 1/2) : ℚ)))
  cosDeg := fun d => cosTaylor (d * piA / 180)
  sqrtQ := sqrtA

/-! ### Waypoints and routes (the `WP` table of mockData.js) -/

/-- A latitude/longitude pair in decimal degrees. -/
structure GeoPt where
  lat : ℚ
  lon : ℚ
deriving DecidableEq

def wpRotterdam : GeoPt := ⟨51.9244, 4.4777⟩
def wpDordrecht : GeoPt := ⟨51.8133, 4.6901⟩
def wpBreda : GeoPt := ⟨51.5719, 4.7683⟩
def wpTilburg : GeoPt := ⟨51.5606, 5.0919⟩
def wpEindhoven : GeoPt := ⟨51.4416, 5.4697⟩
def wpVenlo : GeoPt := ⟨51.3704, 6.1724⟩
def wpCologne : GeoPt := ⟨50.9375, 6.9603⟩
def wpFrankfurt : GeoPt := ⟨50.1109, 8.6821⟩
def wpNuremberg : GeoPt := ⟨49.4521, 11.0767⟩
def wpVienna : GeoPt := ⟨48.2082, 16.3738⟩
def wpBudapest : GeoPt := ⟨47.4979, 19.0402⟩

def routeRtmToTilburg : List GeoPt := [wpRotterdam, wpDordrecht, wpBreda, wpTilburg]

def routeTilburgToBudapest : List GeoPt :=
  [wpTilburg, wpEindhoven, wpVenlo, wpCologne, wpFrankfurt, wpNuremberg, wpVienna, wpBudapest]

def routeBudapestToTilburg : List GeoPt := routeTilburgToBudapest.reverse

def routeTilburgToRtm : List GeoPt := routeRtmToTilburg.reverse

/-! ### GPS synthesis -/

/-- `addGpsJitterKm(lat, lon, rand, maxKm)`: displacement within a disk,
`r = Math.sqrt(rand()) * maxKm`, `theta = rand() * 2 * Math.PI`.  Since
`theta = 2π * u` with `u` the second sample, `cos theta` is `cos2pi u`
and `sin theta` is `sin2pi u`. -/
def addGpsJitterKm (fns : RealFns) (lat lon : ℚ) (maxKm : ℚ) (s : Nat) : GeoPt × Nat :=
  let p1 := mulberryStep s
  let r := fns.sqrtQ p1.1 * maxKm
  let p2 := mulberryStep p1.2
  let dLat := r * fns.cos2pi p2.1 / 111.32
  let dLon := r * fns.sin2pi p2.1 / (111.32 * fns.cosDeg lat + 1/1000000000)
  (⟨lat + dLat, lon + dLon⟩, p2.2)

/-- The rough distance of one waypoint segment used to weight step counts
in `buildSegmentPolyline`. -/
def segLen (fns : RealFns) (a b : GeoPt) : ℚ :=
  let dLat := (b.lat - a.lat) * 111.32
  let dLon := (b.lon - a.lon) * 111.32 * fns.cosDeg ((a.lat + b.lat) / 2)
  fns.sqrtQ (dLat * dLat + dLon * dLon)

/-- Consecutive waypoint pairs of a route. -/
def segPairs : List GeoPt → List (GeoPt × GeoPt)
  | a :: b :: rest => (a, b) :: segPairs (b :: rest)
  | _ => []

/-- The sampled points of one waypoint segment: `segSteps` points
interpolated by `t = s / (segSteps - 1)` with GPS jitter.  (For
`segSteps = 1` the source computes `0/0 = NaN` coordinates: the model
returns the segment start instead; no claim concerns those coordinate
values, and the PRNG consumption is identical.) -/
def segPoints (fns : RealFns) (jitterKm : ℚ) (a b : GeoPt) (segSteps : Int) (s0 : Nat) :
    List GeoPt × Nat :=
  (List.range segSteps.toNat).foldl
    (fun acc sstep =>
      let t : ℚ := (sstep : ℚ) / ((segSteps : ℚ) - 1)
      let lat := a.lat + (b.lat - a.lat) * t
      let lon := a.lon + (b.lon - a.lon) * t
      let pr := addGpsJitterKm fns lat lon jitterKm acc.2
      (acc.1 ++ [pr.1], pr.2))
    ([], s0)

/-- The per-segment loop of `buildSegmentPolyline`: the last segment gets
the remaining steps, earlier segments get
`max(2, Math.round(segLens[i] / total * steps))`. -/
def polySegsAux (fns : RealFns) (jitterKm : ℚ) (steps : Int) (total : ℚ) :
    List (GeoPt × GeoPt) → Int → List GeoPt → Nat → List GeoPt × Nat
  | [], _, acc, s => (acc, s)
  | (a, b) :: rest, remaining, acc, s =>
    let segSteps : Int :=
      if rest.isEmpty then remaining
      else max 2 (jsRound (segLen fns a b / total * (steps : ℚ)))
    let pr := segPoints fns jitterKm a b segSteps s
    polySegsAux fns jitterKm steps total rest (remaining - segSteps) (acc ++ pr.1) pr.2

/-- `buildSegmentPolyline(routePoints, steps, rand, jitterKm)`. -/
def buildSegmentPolyline (fns : RealFns) (route : List GeoPt) (steps : Int)
    (jitterKm : ℚ) (s : Nat) : List GeoPt × Nat :=
  if route.length < 2 ∨ steps ≤ 1 then ([], s)
  else
    let pairs := segPairs route
    let total := (pairs.map fun p => segLen fns p.1 p.2).sum
    polySegsAux fns jitterKm steps total pairs steps [] s

/-- `buildStopPoints(location, steps, rand, jitterKm)`. -/
def buildStopPoints (fns : RealFns) (loc : GeoPt) (steps : Int) (jitterKm : ℚ)
    (s0 : Nat) : List GeoPt × Nat :=
  (List.range steps.toNat).foldl
    (fun acc _ =>
      let pr := addGpsJitterKm fns loc.lat loc.lon jitterKm acc.2
      (acc.1 ++ [pr.1], pr.2))
    ([], s0)

/-! ### Legs and the cyclic timeline -/

/-- The eight leg types of the fixed cycle.  The source identifies them by
strings; `isTravel` models `phase.includes("to_")`, `isStop` models
`phase.startsWith("stop")`, `isRest` models `phase.startsWith("rest")`. -/
inductive LegType where
  | rtm_to_tilburg
  | stop_tilburg
  | tilburg_to_budapest
  | rest_budapest
  | budapest_to_tilburg
  | stop_tilburg_2
  | tilburg_to_rtm
  | rest_rtm
deriving DecidableEq

def LegType.isTravel : LegType → Bool
  | .rtm_to_tilburg | .tilburg_to_budapest | .budapest_to_tilburg | .tilburg_to_rtm => true
  | _ => false

def LegType.isStop : LegType → Bool
  | .stop_tilburg | .stop_tilburg_2 => true
  | _ => false

def LegType.isRest : LegType → Bool
  | .rest_budapest | .rest_rtm => true
  | _ => false

/-- One instantiated leg of the timeline. -/
structure Leg where
  ty : LegType
  fromMs : Int
  toMs : Int
deriving DecidableEq

/-- The `legsDef` table of `buildCycleTimeline` (nominal minutes). -/
def legsDef : List (LegType × Int) :=
  [(.rtm_to_tilburg, 60), (.stop_tilburg, 240), (.tilburg_to_budapest, 32 * 60),
   (.rest_budapest, 48 * 60), (.budapest_to_tilburg, 32 * 60), (.stop_tilburg_2, 240),
   (.tilburg_to_rtm, 60), (.rest_rtm, 48 * 60)]

/-- One pass of the inner `for (const l of legsDef)` loop, with the
early `break` once `t >= end`. -/
def cycleStep (endMs : Int) : List (LegType × Int) → Int → List Leg × Int
  | [], t => ([], t)
  | (ty, mins) :: rest, t =>
    let t2 := addMinutesMs t mins
    let leg : Leg := ⟨ty, t, t2⟩
    if endMs ≤ t2 then ([leg], t2)
    else
      let pr := cycleStep endMs rest t2
      (leg :: pr.1, pr.2)

/-- The outer `while (t < end)` loop.  The fuel bound is structural only:
each pass advances `t` by a full cycle (10200 minutes > 7 days), so
`daysTotal + 2` passes always suffice to reach `end`. -/
def buildLegs (endMs : Int) : Int → Nat → List Leg
  | _, 0 => []
  | t, fuel + 1 =>
    if t < endMs then
      let pr := cycleStep endMs legsDef t
      pr.1 ++ buildLegs endMs pr.2 fuel
    else []

/-- `buildCycleTimeline(startDate, daysTotal)` (the legs component; its
`end` is `start + daysTotal` days). -/
def buildCycleTimeline (startMs : Int) (daysTotal : Int) : List Leg :=
  buildLegs (startMs + daysTotal * 86400000) startMs (daysTotal.toNat + 2)

/-- `buildGpsForLeg(type, steps, rand, jitterKm)`. -/
def buildGpsForLeg (fns : RealFns) (ty : LegType) (steps : Int) (jitterKm : ℚ)
    (s : Nat) : List GeoPt × Nat :=
  match ty with
  | .rtm_to_tilburg => buildSegmentPolyline fns routeRtmToTilburg steps jitterKm s
  | .tilburg_to_budapest => buildSegmentPolyline fns routeTilburgToBudapest steps jitterKm s
  | .budapest_to_tilburg => buildSegmentPolyline fns routeBudapestToTilburg steps jitterKm s
  | .tilburg_to_rtm => buildSegmentPolyline fns routeTilburgToRtm steps jitterKm s
  | .stop_tilburg | .stop_tilburg_2 => buildStopPoints fns wpTilburg steps jitterKm s
  | .rest_budapest => buildStopPoints fns wpBudapest steps jitterKm s
  | .rest_rtm => buildStopPoints fns wpRotterdam steps jitterKm s

/-! ### Sensor synthesis -/

/-- The non-impact sensor fields of one sample. -/
structure SensorVals where
  tempC : ℚ
  rhPct : ℚ
  vibrationRms : ℚ
  vibrationHz : ℚ
deriving DecidableEq

/-- `generateSensors({ ts, phase, rand })`, with the PRNG draws in source
order: temperature noise, reefer offset (long-haul only), stop/rest
drift, humidity noise, rain boost (rain window only), vibration RMS,
dominant frequency, and the RMS-frequency correlation term. -/
def generateSensors (fns : RealFns) (tsMs : Int) (phase : LegType) (s : Nat) :
    SensorVals × Nat :=
  let hod := hourOfDay tsMs
  let weekend := isWeekend tsMs
  let dayWave := fns.sin2pi ((hod - 6) / 24)
  let p1 := mulberryStep s
  let tempC0 : ℚ := 6 + 2.8 * dayWave + (p1.1 - 0.5) * 0.8
  let pr2 : ℚ × Nat :=
    if phase = .tilburg_to_budapest ∨ phase = .budapest_to_tilburg then
      let p := mulberryStep p1.2
      (tempC0 - (1.4 + p.1 * 0.4), p.2)
    else (tempC0, p1.2)
  let pr3 : ℚ × Nat :=
    if phase.isStop || phase.isRest then
      let p := mulberryStep pr2.2
      (pr2.1 + (0.7 + p.1 * 0.5), p.2)
    else pr2
  let nightHumid := fns.cos2pi ((hod - 3) / 24)
  let p4 := mulberryStep pr3.2
  let rhPct0 : ℚ := 58 + 12 * nightHumid + (p4.1 - 0.5) * 4.0
  let di := dayIndex tsMs
  let inRain := 6 ≤ di.emod 14 ∧ di.emod 14 ≤ 9
  let pr5 : ℚ × Nat :=
    if inRain then
      let p := mulberryStep p4.2
      (rhPct0 + (12 + p.1 * 5), p.2)
    else (rhPct0, p4.2)
  let rhPct1 := clampQ pr5.1 35 98
  let p6 := mulberryStep pr5.2
  let vibRms0 : ℚ :=
    if phase.isTravel then 0.35 + p6.1 * 0.35
    else if phase.isStop then 0.12 + p6.1 * 0.10
    else 0.03 + p6.1 * 0.05
  let vibRms1 := if weekend then vibRms0 * 0.55 else vibRms0
  let p7 := mulberryStep p6.2
  let vibHz0 : ℚ :=
    if phase.isTravel then 18 + p7.1 * 37
    else if phase.isStop then 6 + p7.1 * 12
    else p7.1 * 6
  let vibHz1 := if weekend then vibHz0 * 0.7 else vibHz0
  let p8 := mulberryStep p7.2
  let vibHz2 := vibHz1 + vibRms1 * (8 + p8.1 * 8)
  (⟨toFixedQ 2 pr3.1, toFixedQ 1 rhPct1,
    toFixedQ 3 (clampQ vibRms1 0 2), toFixedQ 1 (clampQ vibHz2 0 120)⟩, p8.2)

/-- `generateImpactG({ ts, phase, rand, impactThresholdG })`: a near-zero
baseline, overridden by the scripted bump during Tilburg stops (minute of
day congruent to 20 mod 240) and the scripted drop/aftershocks on the
outbound long haul (minute of day 11 / 41 / 71). -/
def generateImpactG (tsMs : Int) (phase : LegType) (impactThresholdG : ℚ) (s : Nat) :
    ℚ × Nat :=
  let p1 := mulberryStep s
  let base : ℚ := 0.02 + p1.1 * 0.08
  let prB : ℚ × Nat :=
    if phase.isStop ∧ (minuteOfDay tsMs).emod 240 = 20 then
      let p := mulberryStep p1.2
      (impactThresholdG + 0.35 + p.1 * 0.2, p.2)
    else (base, p1.2)
  let prD : ℚ × Nat :=
    if phase = .tilburg_to_budapest ∧ (minuteOfDay tsMs).emod 1440 = 11 then
      let p := mulberryStep prB.2
      (7.8 + p.1 * 1.8, p.2)
    else prB
  let prA1 : ℚ × Nat :=
    if phase = .tilburg_to_budapest ∧ (minuteOfDay tsMs).emod 1440 = 41 then
      let p := mulberryStep prD.2
      (2.4 + p.1 * 0.6, p.2)
    else prD
  let prA2 : ℚ × Nat :=
    if phase = .tilburg_to_budapest ∧ (minuteOfDay tsMs).emod 1440 = 71 then
      let p := mulberryStep prA1.2
      (1.6 + p.1 * 0.4, p.2)
    else prA1
  (toFixedQ 2 prA2.1, prA2.2)

/-! ### The generator `generateMockData` -/

/-- One telemetry sample, as pushed onto `points` by the generator.
The source stores `ts` as an ISO string; the model keeps the millisecond
timestamp (see the header) and serialises via `toIsoString`. -/
structure Reading where
  tsMs : Int
  trackingCode : String
  lat : ℚ
  lon : ℚ
  tempC : ℚ
  rhPct : ℚ
  impactG : ℚ
  vibrationRms : ℚ
  vibrationHz : ℚ
  batteryPct : ℚ
  batteryV : ℚ
deriving DecidableEq

instance : Inhabited Reading :=
  ⟨⟨0, "", 0, 0, 0, 0, 0, 0, 0, 0, 0⟩⟩

/-- The options object of `generateMockData`, with the source defaults.
`days` and `sampleMinutes` are modelled as integers (the spec and all
call sites use integer values). -/
structure GenConfig where
  trackingCode : String := "CS-DEMO"
  days : Int := 60
  sampleMinutes : Int := 30
  sampleJitterMinutes : ℚ := 3
  gpsJitterKm : ℚ := 1
  impactThresholdG : ℚ := 2
  startDate : Option Int := none
  batteryDrainDays : ℚ := 90

/-- `legMins = minutesBetween(leg.from, leg.to)`. -/
def legMinutes (leg : Leg) : Int := minutesBetween leg.fromMs leg.toMs

/-- `steps = Math.max(2, Math.round(legMins / sampleMinutes))`.  (For
`sampleMinutes = 0` the source loops forever; the model's rational
division yields 0 there, and no claim is settled at that input.) -/
def legSteps (cfg : GenConfig) (legMins : Int) : Int :=
  max 2 (jsRound ((legMins : ℚ) / (cfg.sampleMinutes : ℚ)))

/-- `ideal = addMinutes(leg.from, Math.round((i / (steps - 1)) * legMins))`. -/
def nominalMs (leg : Leg) (legMins steps : Int) (i : Nat) : Int :=
  addMinutesMs leg.fromMs (jsRound ((i : ℚ) / ((steps : ℚ) - 1) * (legMins : ℚ)))

/-- One iteration of the inner sampling loop: jitter draw, window check
(`continue` when outside), then GPS pick, sensors, impact, the battery
model with the monotone floor against `lastBatteryPct`, and the derived
voltage.  Returns the optional reading, the PRNG state, and the updated
`lastBatteryPct`. -/
def sampleOne (fns : RealFns) (cfg : GenConfig) (startMs endMs : Int) (leg : Leg)
    (legMins steps : Int) (gpsPts : List GeoPt) (s : Nat) (lastPct : ℚ) (i : Nat) :
    Option Reading × Nat × ℚ :=
  let ideal := nominalMs leg legMins steps i
  let pJ := mulberryStep s
  let jit := jsRound ((pJ.1 * 2 - 1) * cfg.sampleJitterMinutes)
  let ts := addMinutesMs ideal jit
  if ts < startMs ∨ endMs < ts then (none, pJ.2, lastPct)
  else
    let gps := gpsPts.getD i (gpsPts.getLastD ⟨0, 0⟩)
    let prS := generateSensors fns ts leg.ty pJ.2
    let prI := generateImpactG ts leg.ty cfg.impactThresholdG prS.2
    let pB := mulberryStep prI.2
    let elapsedDays : ℚ := ((ts - startMs : Int) : ℚ) / 86400000
    let idealPct : ℚ := 100 * (1 - elapsedDays / cfg.batteryDrainDays)
    let noisyPct : ℚ := idealPct + (pB.1 - 0.5) * 1.2
    let pct := clampQ noisyPct 0 100
    let batteryPct := min lastPct pct
    let pV := mulberryStep pB.2
    let batteryV : ℚ := 3.0 + (batteryPct / 100) * 0.6 + (pV.1 - 0.5) * 0.02
    (some { tsMs := ts, trackingCode := cfg.trackingCode,
            lat := toFixedQ 6 gps.lat, lon := toFixedQ 6 gps.lon,
            tempC := prS.1.tempC, rhPct := prS.1.rhPct, impactG := prI.1,
            vibrationRms := prS.1.vibrationRms, vibrationHz := prS.1.vibrationHz,
            batteryPct := toFixedQ 1 batteryPct,
            batteryV := toFixedQ 2 (clampQ batteryV 2.8 3.65) },
     pV.2, batteryPct)

/-- The inner `for (let i = 0; i < steps; i++)` loop over sample indices,
threading the PRNG state and `lastBatteryPct`. -/
def sampleAux (fns : RealFns) (cfg : GenConfig) (startMs endMs : Int) (leg : Leg)
    (legMins steps : Int) (gpsPts : List GeoPt) :
    List Nat → Nat → ℚ → List Reading × Nat × ℚ
  | [], s, pct => ([], s, pct)
  | i :: rest, s, pct =>
    let one := sampleOne fns cfg startMs endMs leg legMins steps gpsPts s pct i
    let pr := sampleAux fns cfg startMs endMs leg legMins steps gpsPts rest one.2.1 one.2.2
    match one.1 with
    | none => pr
    | some r => (r :: pr.1, pr.2)

/-- The body of the outer `for (const leg of legs)` loop: GPS points for
the leg, then the sampling loop. -/
def legOut (fns : RealFns) (cfg : GenConfig) (startMs endMs : Int) (s : Nat)
    (pct : ℚ) (leg : Leg) : List Reading × Nat × ℚ :=
  let legMins := legMinutes leg
  let steps := legSteps cfg legMins
  let gp := buildGpsForLeg fns leg.ty steps cfg.gpsJitterKm s
  sampleAux fns cfg startMs endMs leg legMins steps gp.1 (List.range steps.toNat) gp.2 pct

/-- The outer loop over legs, concatenating each leg's readings in
generation order. -/
def genAux (fns : RealFns) (cfg : GenConfig) (startMs endMs : Int) :
    List Leg → Nat → ℚ → List Reading
  | [], _, _ => []
  | leg :: rest, s, pct =>
    let pr := legOut fns cfg startMs endMs s pct leg
    pr.1 ++ genAux fns cfg startMs endMs rest pr.2.1 pr.2.2

/-- `const start = startDate instanceof Date ? new Date(startDate) :
new Date(Date.now() - days * 24 * 60 * 60000)`.  The ambient wall clock
`Date.now()` is an explicit parameter of the model. -/
def resolveStart (cfg : GenConfig) (nowMs : Int) : Int :=
  match cfg.startDate with
  | some d => d
  | none => nowMs - cfg.days * 86400000

/-- The generator body from a resolved start instant: timeline, PRNG
seeded from the tracking code, `lastBatteryPct = 100`. -/
def genFrom (fns : RealFns) (cfg : GenConfig) (startMs : Int) : List Reading :=
  let endMs := startMs + cfg.days * 86400000
  genAux fns cfg startMs endMs (buildCycleTimeline startMs cfg.days)
    (hashStringToSeed cfg.trackingCode) 100

/-- The `points` array before the final sort, in generation order. -/
def generatePoints (fns : RealFns) (cfg : GenConfig) (nowMs : Int) : List Reading :=
  genFrom fns cfg (resolveStart cfg nowMs)

/-- The comparator of `points.sort((a, b) => new Date(a.ts) - new Date(b.ts))`. -/
def tsLe (a b : Reading) : Prop := a.tsMs ≤ b.tsMs

instance : DecidableRel tsLe := fun a b => Int.decLe _ _

instance : IsTotal Reading tsLe := ⟨fun a b => Int.le_total a.tsMs b.tsMs⟩

instance : IsTrans Reading tsLe := ⟨fun _ _ _ hab hbc => le_trans hab hbc⟩

/-- `generateMockData`: the generated points, stably sorted by timestamp.
ECMAScript `Array.prototype.sort` is required to be stable, and a stable
sort by a total preorder is unique, so any stable sort models it;
`List.insertionSort` is stable. -/
def generateMockData (fns : RealFns) (cfg : GenConfig) (nowMs : Int) : List Reading :=
  (generatePoints fns cfg nowMs).insertionSort tsLe

/-! ### The bucketed, extrema-preserving downsample

The chart-helper variant (`downsample(readings, maxPoints)` bucketing by
time and keeping first / max-impact / last per bucket).  It operates on
readings of the `mockReadings` shape (`ts`, `temp`, `rh`, `impactG`,
`vibHz`); the de-duplication key is exactly that field tuple, so for this
record type it coincides with record equality. -/

/-- A reading as consumed by the chart pipeline. -/
structure DSReading where
  tsMs : Int
  temp : ℚ
  rh : ℚ
  impactG : ℚ
  vibHz : ℚ
deriving DecidableEq

instance : Inhabited DSReading := ⟨⟨0, 0, 0, 0, 0⟩⟩

/-- The sort comparator (`new Date(a.ts) - new Date(b.ts)`). -/
def dsLe (a b : DSReading) : Prop := a.tsMs ≤ b.tsMs

instance : DecidableRel dsLe := fun a b => Int.decLe _ _

instance : IsTotal DSReading dsLe := ⟨fun a b => Int.le_total a.tsMs b.tsMs⟩

instance : IsTrans DSReading dsLe := ⟨fun _ _ _ hab hbc => le_trans hab hbc⟩

/-- The input sorted by timestamp (stable; see `generateMockData` on
modelling JavaScript's stable sort by insertion sort). -/
def dsSorted (readings : List DSReading) : List DSReading := readings.insertionSort dsLe

/-- `bucketCount = Math.min(maxPoints, n)`. -/
def dsBucketCount (readings : List DSReading) (maxPoints : Int) : Int :=
  min maxPoints (readings.length : Int)

/-- `start = new Date(sorted[0].ts).getTime()` (0 on the never-taken
empty input: the guard returns the input unchanged before this point
whenever `maxPoints ≥ 0`). -/
def dsStart (readings : List DSReading) : Int := ((dsSorted readings).headD default).tsMs

/-- `span = Math.max(1, end - start)`. -/
def dsSpan (readings : List DSReading) : Int :=
  max 1 (((dsSorted readings).getLastD default).tsMs - dsStart readings)

/-- `bucketMs = Math.ceil(span / bucketCount)` (`Math.ceil x = -⌊-x⌋`). -/
def dsBucketMs (readings : List DSReading) (maxPoints : Int) : Int :=
  -Rat.floor (-((dsSpan readings : ℚ) / (dsBucketCount readings maxPoints : ℚ)))

/-- `key = Math.floor((t - start) / bucketMs)`. -/
def dsKey (readings : List DSReading) (maxPoints : Int) (r : DSReading) : Int :=
  Rat.floor (((r.tsMs - dsStart readings : Int) : ℚ) / (dsBucketMs readings maxPoints : ℚ))

theorem dsBucketMs_eq (readings : List DSReading) (maxPoints : Int) :
    dsBucketMs readings maxPoints =
      ⌈(dsSpan readings : ℚ) / (dsBucketCount readings maxPoints : ℚ)⌉ := by
  rw [dsBucketMs, Rat.floor_def', ← Rat.floor_def, Int.floor_neg, neg_neg]

theorem dsKey_eq (readings : List DSReading) (maxPoints : Int) (r : DSReading) :
    dsKey readings maxPoints r =
      ⌊((r.tsMs - dsStart readings : Int) : ℚ) / (dsBucketMs readings maxPoints : ℚ)⌋ := by
  rw [dsKey, Rat.floor_def', ← Rat.floor_def]

/-- First-occurrence de-duplication (JavaScript `Map` / `Set` insertion
order). -/
def dedupF [DecidableEq α] : List α → List α → List α
  | _, [] => []
  | seen, x :: rest =>
    if x ∈ seen then dedupF seen rest
    else x :: dedupF (x :: seen) rest

/-- The buckets in `Map` insertion order: the distinct keys in order of
first appearance, each mapped to the (time-ordered) readings with that
key. -/
def dsBuckets (readings : List DSReading) (maxPoints : Int) : List (List DSReading) :=
  (dedupF [] ((dsSorted readings).map (dsKey readings maxPoints))).map
    fun k => (dsSorted readings).filter fun r => dsKey readings maxPoints r = k

/-- The first-maximal-impact scan `for (const r of arr) if (r.impactG > m.impactG) m = r`. -/
def maxImpact (m : DSReading) (arr : List DSReading) : DSReading :=
  arr.foldl (fun m r => if m.impactG < r.impactG then r else m) m

/-- `picked.push(a, m, z)` for one bucket. -/
def pick3 (arr : List DSReading) : List DSReading :=
  match arr with
  | [] => []
  | a :: t => [a, maxImpact a (a :: t), (a :: t).getLastD a]

/-- `downsample(readings, maxPoints)` (bucketed variant).  The `seen`-set
de-duplication keys on the tuple `ts|temp|rh|impactG|vibHz`, which for
this record type is the whole record. -/
def downsample (readings : List DSReading) (maxPoints : Int) : List DSReading :=
  if (readings.length : Int) ≤ maxPoints then readings
  else
    (dedupF [] ((dsBuckets readings maxPoints).flatMap pick3)).insertionSort dsLe

/-! ### Route segmentation (`chunkByImpact` of DeviceMap.jsx) -/

/-- A normalized map point (`{ts, lat, lon, impactG}`). -/
structure MapPt where
  lat : ℚ
  lon : ℚ
  impactG : ℚ
deriving DecidableEq

/-- One polyline segment with its hot flag. -/
structure Seg where
  hot : Bool
  positions : List (ℚ × ℚ)
deriving DecidableEq

/-- The loop of `chunkByImpact`: an edge is hot when either endpoint
meets the threshold; on a flip the transition point is pushed into the
closing segment before opening the new one; the final segment is kept
only with at least two positions. -/
def chunkAux (thr : ℚ) : MapPt → Seg → List MapPt → List Seg
  | _, cur, [] => if 2 ≤ cur.positions.length then [cur] else []
  | prev, cur, p :: rest =>
    let hot : Bool := decide (thr ≤ prev.impactG) || decide (thr ≤ p.impactG)
    if hot ≠ cur.hot then
      ⟨cur.hot, cur.positions ++ [(p.lat, p.lon)]⟩ ::
        chunkAux thr p ⟨hot, [(p.lat, p.lon)]⟩ rest
    else chunkAux thr p ⟨cur.hot, cur.positions ++ [(p.lat, p.lon)]⟩ rest

/-- `chunkByImpact(sampled, impactThresholdG)`. -/
def chunkByImpact (sampled : List MapPt) (thr : ℚ) : List Seg :=
  match sampled with
  | [] => []
  | [_] => []
  | p0 :: rest =>
    chunkAux thr p0 ⟨decide (thr ≤ p0.impactG), [(p0.lat, p0.lon)]⟩ rest

/-! ### ISO-8601 serialisation and CSV export (`toCsv` of Track.jsx) -/

/-- Civil date from a day number (days since 1970-01-01), the standard
era-based algorithm; returns (year, month, day). -/
def civilFromDays (z0 : Int) : Int × Int × Int :=
  let z := z0 + 719468
  let era := z.fdiv 146097
  let doe := z - era * 146097
  let yoe := (doe - doe / 1460 + doe / 36524 - doe / 146096) / 365
  let y := yoe + era * 400
  let doy := doe - (365 * yoe + yoe / 4 - yoe / 100)
  let mp := (5 * doy + 2) / 153
  let d := doy - (153 * mp + 2) / 5 + 1
  let m := mp + (if mp < 10 then 3 else -9)
  (y + (if m ≤ 2 then 1 else 0), m, d)

/-- Zero-padding of a nonnegative value to the given number of digits. -/
def padNum (width : Nat) (n : Int) : String :=
  let digits := toString n.toNat
  String.mk (List.replicate (width - digits.length) '0') ++ digits

/-- `Date.prototype.toISOString`: `YYYY-MM-DDTHH:mm:ss.sssZ`, always with
millisecond precision. -/
def toIsoString (ms : Int) : String :=
  let day := ms.fdiv 86400000
  let ymd := civilFromDays day
  let rem := ms - day * 86400000
  padNum 4 ymd.1 ++ "-" ++ padNum 2 ymd.2.1 ++ "-" ++ padNum 2 ymd.2.2 ++ "T" ++
    padNum 2 (rem / 3600000) ++ ":" ++ padNum 2 (rem / 60000 % 60) ++ ":" ++
    padNum 2 (rem / 1000 % 60) ++ "." ++ padNum 3 (rem % 1000) ++ "Z"

/-- The header array of `toCsv`, joined with commas. -/
def csvHeader : String :=
  String.intercalate ","
    ["ts", "lat", "lon", "tempC", "rhPct", "impactG", "vibrationRms",
     "vibrationHz", "batteryPct", "batteryV"]

/-- One data row of `toCsv`: the fields of a reading in header order,
joined with commas.  Serialisation of the numeric fields (JavaScript
`ToString` on numbers) is a parameter `numStr`; the `ts` field is the
ISO string the generator stored. -/
def csvRow (numStr : ℚ → String) (r : Reading) : String :=
  String.intercalate ","
    [toIsoString r.tsMs, numStr r.lat, numStr r.lon, numStr r.tempC, numStr r.rhPct,
     numStr r.impactG, numStr r.vibrationRms, numStr r.vibrationHz,
     numStr r.batteryPct, numStr r.batteryV]

/-- The `lines` array of `toCsv`: the header line followed by one line
per reading. -/
def toCsvLines (numStr : ℚ → String) (rows : List Reading) : List String :=
  csvHeader :: rows.map (csvRow numStr)

/-- `toCsv(rows) = lines.join("\n")`. -/
def toCsv (numStr : ℚ → String) (rows : List Reading) : String :=
  String.intercalate "\n" (toCsvLines numStr rows)

/-! ### C3 — determinism -/

/-- C3: two calls to `generateMockData` with identical arguments
(including an explicitly supplied `startDate`) return identical
sequences; the ambient wall clock (`Date.now()`, the `nowMs` parameter
of the model) has no influence on the output when `startDate` is given,
and the generator reads no other external entropy (it is a pure function
of its arguments). -/
theorem generateMockData_deterministic (fns : RealFns) (cfg : GenConfig)
    (t now₁ now₂ : Int) (h : cfg.startDate = some t) :
    generateMockData fns cfg now₁ = generateMockData fns cfg now₂ := by
  simp only [generateMockData, generatePoints, resolveStart, h]

/-- A configuration with an explicit start instant, for the C3 witness. -/
def detCfg : GenConfig := { startDate := some 0 }

/-- Witness for C3 at a concrete configuration and two different wall
clocks. -/
theorem generateMockData_deterministic_witness :
    detCfg.startDate = some 0 ∧
      generateMockData approxFns detCfg 123456 = generateMockData approxFns detCfg 987654 :=
  ⟨rfl, generateMockData_deterministic approxFns detCfg 0 123456 987654 rfl⟩

/-! ### C1 — timestamp ordering -/

/-- C1 (amended): every generated sequence is sorted non-decreasing by
timestamp. -/
theorem generateMockData_sorted (fns : RealFns) (cfg : GenConfig) (nowMs : Int) :
    (generateMockData fns cfg nowMs).Pairwise fun a b => a.tsMs ≤ b.tsMs :=
  List.sorted_insertionSort tsLe (generatePoints fns cfg nowMs)

/-- A configuration under which duplicate timestamps are guaranteed:
zero sampling jitter makes the last sample of each leg and the first
sample of the next leg land on the same instant (the shared leg
boundary). -/
def dupTsCfg : GenConfig :=
  { days := 1, sampleMinutes := 1000000, sampleJitterMinutes := 0, startDate := some 0 }

/-- C1 (counterexample): with zero sampling jitter the generated sequence
contains two readings with the same timestamp (minute 60, the boundary
between the first travel leg and the Tilburg stop), so the sequence is
not strictly increasing in timestamp. -/
theorem generateMockData_not_strictly_increasing :
    ¬ (generateMockData approxFns dupTsCfg 0).Pairwise fun a b => a.tsMs < b.tsMs := by
  intro h
  have hmap : (generateMockData approxFns dupTsCfg 0).map Reading.tsMs =
      [0, 3600000, 3600000, 18000000, 18000000] := by with_unfolding_all rfl
  have h2 : ((generateMockData approxFns dupTsCfg 0).map Reading.tsMs).Pairwise (· < ·) :=
    (List.pairwise_map).mpr h
  rw [hmap] at h2
  simp [List.pairwise_cons] at h2

/-! ### C8 — no fail-fast on invalid configuration -/

/-- C8 (amended): for non-positive `days` the generator returns the empty
sequence (the timeline loop never runs); no error is signalled. -/
theorem generateMockData_nonpositive_days (fns : RealFns) (cfg : GenConfig)
    (nowMs : Int) (h : cfg.days ≤ 0) : generateMockData fns cfg nowMs = [] := by
  have htn : cfg.days.toNat = 0 := Int.toNat_of_nonpos h
  have hend : ¬ (resolveStart cfg nowMs <
      resolveStart cfg nowMs + cfg.days * 86400000) := by
    have : cfg.days * 86400000 ≤ 0 :=
      mul_nonpos_iff.mpr (Or.inr ⟨h, by norm_num⟩)
    omega
  simp only [generateMockData, generatePoints, genFrom, buildCycleTimeline, htn]
  rw [buildLegs, if_neg hend]
  rfl

/-- An invalid configuration (negative `days`) for the C8 counterexample. -/
def negDaysCfg : GenConfig := { days := -1, startDate := some 0 }

/-- An invalid configuration (negative `sampleMinutes`) for the C8
counterexample. -/
def negSampleCfg : GenConfig := { days := 1, sampleMinutes := -30, startDate := some 0 }

/-- C8 (counterexample): generation does not fail fast on invalid
configuration.  The source contains no validation and no error channel:
with `days = -1` it silently returns the empty sequence, and with
`sampleMinutes = -30` it silently returns an ordinary 4-element sequence
(the per-leg step count clamps to 2). -/
theorem generateMockData_no_failfast :
    generateMockData approxFns negDaysCfg 0 = [] ∧
      (generateMockData approxFns negSampleCfg 0).length = 4 := by
  constructor
  · with_unfolding_all rfl
  · with_unfolding_all rfl

/-- A degenerate-but-valid configuration (`days = 0`) for the C8 witness. -/
def zeroDaysCfg : GenConfig := { days := 0, startDate := some 0 }

/-- Witness for C8 (amended) at `days = 0`: the empty sequence, no error. -/
theorem generateMockData_nonpositive_days_witness :
    zeroDaysCfg.days ≤ 0 ∧ generateMockData approxFns zeroDaysCfg 0 = [] :=
  ⟨by decide, generateMockData_nonpositive_days approxFns zeroDaysCfg 0 (by decide)⟩

/-! ### The battery invariant (C2, C10) -/

theorem toFixedQ_one_nonneg {x : ℚ} (h : 0 ≤ x) : 0 ≤ toFixedQ 1 x := by
  have := toFixedQ_le_toFixedQ (f := 1) h
  have h0 : toFixedQ 1 (0 : ℚ) = 0 := by with_unfolding_all decide
  linarith

theorem toFixedQ_one_le_hundred {x : ℚ} (h : x ≤ 100) : toFixedQ 1 x ≤ 100 := by
  have := toFixedQ_le_toFixedQ (f := 1) h
  have h0 : toFixedQ 1 (100 : ℚ) = 100 := by with_unfolding_all decide
  linarith

theorem voltage_round_ge (x : ℚ) : 2.8 ≤ toFixedQ 2 (clampQ x 2.8 3.65) := by
  have h1 : (2.8 : ℚ) ≤ clampQ x 2.8 3.65 := le_clampQ
  have h2 : toFixedQ 2 (2.8 : ℚ) = 2.8 := by with_unfolding_all decide
  calc (2.8 : ℚ) = toFixedQ 2 2.8 := h2.symm
    _ ≤ _ := toFixedQ_le_toFixedQ h1

theorem voltage_round_le (x : ℚ) : toFixedQ 2 (clampQ x 2.8 3.65) ≤ 3.65 := by
  have h1 : clampQ x 2.8 3.65 ≤ 3.65 := clampQ_le (by norm_num)
  have h2 : toFixedQ 2 (3.65 : ℚ) = 3.65 := by with_unfolding_all decide
  calc toFixedQ 2 (clampQ x 2.8 3.65) ≤ toFixedQ 2 3.65 := toFixedQ_le_toFixedQ h1
    _ = 3.65 := h2

/-- Per-sample battery facts: the updated `lastBatteryPct` never
increases and stays nonnegative, and the emitted reading (if any)
carries exactly the rounded new `lastBatteryPct` and a clamped voltage. -/
theorem sampleOne_spec (fns : RealFns) (cfg : GenConfig) (startMs endMs : Int)
    (leg : Leg) (legMins steps : Int) (gpsPts : List GeoPt) (s : Nat) (pct : ℚ)
    (i : Nat) (h0 : 0 ≤ pct) :
    (sampleOne fns cfg startMs endMs leg legMins steps gpsPts s pct i).2.2 ≤ pct ∧
    0 ≤ (sampleOne fns cfg startMs endMs leg legMins steps gpsPts s pct i).2.2 ∧
    ∀ r ∈ (sampleOne fns cfg startMs endMs leg legMins steps gpsPts s pct i).1,
      r.batteryPct =
        toFixedQ 1 (sampleOne fns cfg startMs endMs leg legMins steps gpsPts s pct i).2.2 ∧
      2.8 ≤ r.batteryV ∧ r.batteryV ≤ 3.65 := by
  dsimp only [sampleOne]
  split
  · exact ⟨le_refl _, h0, by simp⟩
  · refine ⟨min_le_left _ _, le_min h0 le_clampQ, ?_⟩
    intro r hr
    simp only [Option.mem_def, Option.some.injEq] at hr
    subst hr
    exact ⟨rfl, voltage_round_ge _, voltage_round_le _⟩

/-- Invariant of the inner sampling loop: the running `lastBatteryPct`
never increases and stays nonnegative; every emitted reading's
`batteryPct` lies between the rounded final and rounded initial running
value, with voltage clamped; and the emitted list is non-increasing in
`batteryPct`. -/
theorem sampleAux_spec (fns : RealFns) (cfg : GenConfig) (startMs endMs : Int)
    (leg : Leg) (legMins steps : Int) (gpsPts : List GeoPt) :
    ∀ (il : List Nat) (s : Nat) (pct : ℚ), 0 ≤ pct →
    (sampleAux fns cfg startMs endMs leg legMins steps gpsPts il s pct).2.2 ≤ pct ∧
    0 ≤ (sampleAux fns cfg startMs endMs leg legMins steps gpsPts il s pct).2.2 ∧
    (∀ r ∈ (sampleAux fns cfg startMs endMs leg legMins steps gpsPts il s pct).1,
      toFixedQ 1 (sampleAux fns cfg startMs endMs leg legMins steps gpsPts il s pct).2.2 ≤
          r.batteryPct ∧
        r.batteryPct ≤ toFixedQ 1 pct ∧ 2.8 ≤ r.batteryV ∧ r.batteryV ≤ 3.65) ∧
    List.Chain' (fun a b => b.batteryPct ≤ a.batteryPct)
      (sampleAux fns cfg startMs endMs leg legMins steps gpsPts il s pct).1
  | [], s, pct, h0 => by
    refine ⟨le_refl _, h0, by simp [sampleAux], by simp [sampleAux]⟩
  | i :: rest, s, pct, h0 => by
    obtain ⟨hOne1, hOne0, hOneMem⟩ :=
      sampleOne_spec fns cfg startMs endMs leg legMins steps gpsPts s pct i h0
    obtain ⟨ih1, ih0, ihMem, ihChain⟩ :=
      sampleAux_spec fns cfg startMs endMs leg legMins steps gpsPts rest
        (sampleOne fns cfg startMs endMs leg legMins steps gpsPts s pct i).2.1
        (sampleOne fns cfg startMs endMs leg legMins steps gpsPts s pct i).2.2 hOne0
    show _ ∧ _ ∧ _ ∧ _
    rw [sampleAux]
    rcases hEq : (sampleOne fns cfg startMs endMs leg legMins steps gpsPts s pct i).1 with
      _ | r0
    · simp only [hEq]
      exact ⟨le_trans ih1 hOne1, ih0,
        fun r hr => ⟨(ihMem r hr).1,
          le_trans (ihMem r hr).2.1 (toFixedQ_le_toFixedQ hOne1),
          (ihMem r hr).2.2⟩,
        ihChain⟩
    · simp only [hEq]
      have hr0 := hOneMem r0 (by rw [hEq]; rfl)
      refine ⟨le_trans ih1 hOne1, ih0, ?_, ?_⟩
      · intro r hr
        rcases List.mem_cons.mp hr with hr | hr
        · subst hr
          exact ⟨by rw [hr0.1]; exact toFixedQ_le_toFixedQ ih1,
            by rw [hr0.1]; exact toFixedQ_le_toFixedQ hOne1, hr0.2⟩
        · exact ⟨(ihMem r hr).1,
            le_trans (ihMem r hr).2.1
              (le_trans (toFixedQ_le_toFixedQ hOne1) (le_refl _)),
            (ihMem r hr).2.2⟩
      · refine List.chain'_cons'.mpr ⟨?_, ihChain⟩
        intro b hb
        have hbmem := List.mem_of_mem_head? hb
        have := (ihMem b hbmem).2.1
        rw [hr0.1]
        exact this

/-- Invariant of the outer leg loop: every reading's `batteryPct` is
nonnegative and at most the rounded incoming `lastBatteryPct`, voltages
are clamped, and the whole generated list is non-increasing in
`batteryPct`. -/
theorem genAux_spec (fns : RealFns) (cfg : GenConfig) (startMs endMs : Int) :
    ∀ (legs : List Leg) (s : Nat) (pct : ℚ), 0 ≤ pct →
    (∀ r ∈ genAux fns cfg startMs endMs legs s pct,
      0 ≤ r.batteryPct ∧ r.batteryPct ≤ toFixedQ 1 pct ∧
        2.8 ≤ r.batteryV ∧ r.batteryV ≤ 3.65) ∧
    List.Chain' (fun a b => b.batteryPct ≤ a.batteryPct)
      (genAux fns cfg startMs endMs legs s pct)
  | [], s, pct, h0 => by simp [genAux]
  | leg :: rest, s, pct, h0 => by
    have hLeg := sampleAux_spec fns cfg startMs endMs leg (legMinutes leg)
      (legSteps cfg (legMinutes leg))
      (buildGpsForLeg fns leg.ty (legSteps cfg (legMinutes leg)) cfg.gpsJitterKm s).1
      (List.range (legSteps cfg (legMinutes leg)).toNat)
      (buildGpsForLeg fns leg.ty (legSteps cfg (legMinutes leg)) cfg.gpsJitterKm s).2
      pct h0
    obtain ⟨hL1, hL0, hLMem, hLChain⟩ := hLeg
    obtain ⟨ihMem, ihChain⟩ := genAux_spec fns cfg startMs endMs rest
      (legOut fns cfg startMs endMs s pct leg).2.1
      (legOut fns cfg startMs endMs s pct leg).2.2 hL0
    show _ ∧ _
    rw [genAux]
    have hLegEq : legOut fns cfg startMs endMs s pct leg =
        sampleAux fns cfg startMs endMs leg (legMinutes leg)
          (legSteps cfg (legMinutes leg))
          (buildGpsForLeg fns leg.ty (legSteps cfg (legMinutes leg)) cfg.gpsJitterKm s).1
          (List.range (legSteps cfg (legMinutes leg)).toNat)
          (buildGpsForLeg fns leg.ty (legSteps cfg (legMinutes leg)) cfg.gpsJitterKm s).2
          pct := rfl
    constructor
    · intro r hr
      rcases List.mem_append.mp hr with hr | hr
      · have := hLMem r (by rw [hLegEq] at hr; exact hr)
        refine ⟨?_, this.2.1, this.2.2⟩
        have hnn : 0 ≤ toFixedQ 1 (legOut fns cfg startMs endMs s pct leg).2.2 :=
          toFixedQ_one_nonneg (by rw [hLegEq]; exact hL0)
        have := this.1
        rw [← hLegEq] at this
        linarith
      · have := ihMem r hr
        refine ⟨this.1, ?_, this.2.2⟩
        calc r.batteryPct ≤ toFixedQ 1 (legOut fns cfg startMs endMs s pct leg).2.2 :=
              this.2.1
          _ ≤ toFixedQ 1 pct := toFixedQ_le_toFixedQ (by rw [hLegEq]; exact hL1)
    · refine List.chain'_append.mpr ⟨by rw [hLegEq]; exact hLChain, ihChain, ?_⟩
      intro x hx y hy
      have hxm : x ∈ (legOut fns cfg startMs endMs s pct leg).1 :=
        List.mem_of_getLast?_eq_some hx
      have hym := List.mem_of_mem_head? hy
      have h1 := (hLMem x (by rw [hLegEq] at hxm; exact hxm)).1
      have h2 := (ihMem y hym).2.1
      rw [← hLegEq] at h1
      exact le_trans h2 h1

/-- C10: every reading produced by `generateMockData` has `batteryPct`
within `[0, 100]` and `batteryV` within `[2.8, 3.65]` (the concrete
clamp bounds applied before output). -/
theorem generateMockData_battery_in_range (fns : RealFns) (cfg : GenConfig)
    (nowMs : Int) : ∀ r ∈ generateMockData fns cfg nowMs,
    (0 ≤ r.batteryPct ∧ r.batteryPct ≤ 100) ∧
      (2.8 ≤ r.batteryV ∧ r.batteryV ≤ 3.65) := by
  intro r hr
  rw [generateMockData, List.mem_insertionSort] at hr
  have := (genAux_spec fns cfg (resolveStart cfg nowMs)
    (resolveStart cfg nowMs + cfg.days * 86400000)
    (buildCycleTimeline (resolveStart cfg nowMs) cfg.days)
    (hashStringToSeed cfg.trackingCode) 100 (by norm_num)).1 r hr
  refine ⟨⟨this.1, ?_⟩, this.2.2⟩
  exact le_trans this.2.1 (toFixedQ_one_le_hundred (le_refl _))

theorem headI_mem {α : Type} [Inhabited α] {l : List α} (h : l ≠ []) : l.headI ∈ l := by
  cases l with
  | nil => exact absurd rfl h
  | cons a t => exact List.mem_cons_self a t

/-- A small configuration for the C10 witness. -/
def smallCfg : GenConfig := { days := 1, sampleMinutes := 1000, startDate := some 0 }

/-- Witness for C10: the generated sequence for a concrete small
configuration is nonempty and its first reading satisfies the bounds. -/
theorem generateMockData_battery_in_range_witness :
    generateMockData approxFns smallCfg 0 ≠ [] ∧
      ((0 ≤ ((generateMockData approxFns smallCfg 0).headI).batteryPct ∧
          ((generateMockData approxFns smallCfg 0).headI).batteryPct ≤ 100) ∧
        (2.8 ≤ ((generateMockData approxFns smallCfg 0).headI).batteryV ∧
          ((generateMockData approxFns smallCfg 0).headI).batteryV ≤ 3.65)) := by
  have hne : generateMockData approxFns smallCfg 0 ≠ [] := by
    with_unfolding_all decide
  refine ⟨hne, ?_⟩
  exact generateMockData_battery_in_range approxFns smallCfg 0 _ (headI_mem hne)

/-! ### C2 — battery monotonicity -/

/-- C2 (amended): in generation order (the order before the final sort by
timestamp), `batteryPct` never increases. -/
theorem generatePoints_battery_monotone (fns : RealFns) (cfg : GenConfig)
    (nowMs : Int) :
    List.Chain' (fun a b => b.batteryPct ≤ a.batteryPct)
      (generatePoints fns cfg nowMs) :=
  (genAux_spec fns cfg (resolveStart cfg nowMs)
    (resolveStart cfg nowMs + cfg.days * 86400000)
    (buildCycleTimeline (resolveStart cfg nowMs) cfg.days)
    (hashStringToSeed cfg.trackingCode) 100 (by norm_num)).2

/-- A configuration under which the final timestamp sort reorders two
boundary samples: at the Tilburg-stop boundary the next leg's first
sample is jittered to an earlier instant than the previous leg's last
sample, and carries the smaller (later-generated) battery value. -/
def sortSwapCfg : GenConfig := { days := 1, sampleMinutes := 360, startDate := some 0 }

/-- C2 (counterexample): in the sorted output of `generateMockData` the
battery percentage increases between two consecutive readings (97.8
followed by 99.8 after 99.7), because the final sort swaps two
jitter-reordered boundary samples while the monotone floor was applied
in generation order. -/
theorem generateMockData_battery_not_monotone :
    ¬ List.Chain' (fun a b => b.batteryPct ≤ a.batteryPct)
      (generateMockData approxFns sortSwapCfg 0) := by
  intro h
  have hmap : (generateMockData approxFns sortSwapCfg 0).map Reading.batteryPct =
      [100, 100, 997/10, 499/5, 99, 99] := by with_unfolding_all rfl
  have h2 : ((generateMockData approxFns sortSwapCfg 0).map Reading.batteryPct).Chain'
      (fun a b => b ≤ a) := (List.chain'_map Reading.batteryPct).mpr h
  rw [hmap] at h2
  simp only [List.chain'_cons, List.chain'_singleton, and_true] at h2
  have : (499/5 : ℚ) ≤ 997/10 := h2.2.2.1
  norm_num at this

/-! ### C6 — scripted impact events

Scripted events fire only when a sample's jittered timestamp has a
minute-of-day exactly matching a scripted offset.  The jitter is at most
±3 minutes; `minuteSafe` checks, purely from the timeline (no PRNG),
that no stop-leg sample can reach minute 20 (mod 240) and no outbound
long-haul sample can reach minutes 41 or 71 (mod 1440) — the offsets of
the bump and of the two aftershocks.  Under that condition every
reading's `impactG` is either the near-zero baseline (< 2) or the severe
drop (≥ 7.8); in particular no reading lies in `[2, 3)`. -/

/-- The possible values of `Math.round((rand() * 2 - 1) * 3)`. -/
def jitList : List Int := [-3, -2, -1, 0, 1, 2, 3]

/-- No bump and no aftershock offset is hit at instant `ts` in a leg of
type `ty`. -/
def sampleMinuteFree (ty : LegType) (ts : Int) : Bool :=
  (!(ty.isStop && ((minuteOfDay ts).emod 240 == 20))) &&
  (!((ty == LegType.tilburg_to_budapest) &&
     (((minuteOfDay ts).emod 1440 == 41) || ((minuteOfDay ts).emod 1440 == 71))))

/-- Every sample of the leg, under every possible jitter, avoids the
bump and aftershock offsets. -/
def legSafe (cfg : GenConfig) (leg : Leg) : Bool :=
  (List.range (legSteps cfg (legMinutes leg)).toNat).all fun i =>
    jitList.all fun j =>
      sampleMinuteFree leg.ty
        (addMinutesMs (nominalMs leg (legMinutes leg) (legSteps cfg (legMinutes leg)) i) j)

/-- Every leg of the timeline is safe. -/
def minuteSafe (cfg : GenConfig) (startMs : Int) : Bool :=
  (buildCycleTimeline startMs cfg.days).all (legSafe cfg)

theorem sampleMinuteFree_spec {ty : LegType} {ts : Int}
    (h : sampleMinuteFree ty ts = true) :
    ¬(ty.isStop = true ∧ (minuteOfDay ts).emod 240 = 20) ∧
    ¬(ty = LegType.tilburg_to_budapest ∧ (minuteOfDay ts).emod 1440 = 41) ∧
    ¬(ty = LegType.tilburg_to_budapest ∧ (minuteOfDay ts).emod 1440 = 71) := by
  simp only [sampleMinuteFree, Bool.and_eq_true, Bool.not_eq_true',
    Bool.and_eq_false_iff, beq_iff_eq, beq_eq_false_iff_ne, ne_eq,
    Bool.or_eq_false_iff] at h
  obtain ⟨h1, h2⟩ := h
  refine ⟨?_, ?_, ?_⟩
  · rintro ⟨ha, hb⟩
    rcases h1 with h1 | h1
    · rw [ha] at h1; exact Bool.true_eq_false.mp h1
    · exact h1 hb
  · rintro ⟨ha, hb⟩
    rcases h2 with h2 | h2
    · exact h2 ha
    · exact h2.1 hb
  · rintro ⟨ha, hb⟩
    rcases h2 with h2 | h2
    · exact h2 ha
    · exact h2.2 hb

/-- The jitter rounding lands in `jitList` (jitter bound 3). -/
theorem jsRound_jitter_mem (v : ℚ) (h0 : 0 ≤ v) (h1 : v < 1) :
    jsRound ((v * 2 - 1) * 3) ∈ jitList := by
  have hlo : (-3 : Int) ≤ jsRound ((v * 2 - 1) * 3) := by
    rw [jsRound_eq]
    refine Int.le_floor.mpr ?_
    push_cast
    nlinarith
  have hhi : jsRound ((v * 2 - 1) * 3) ≤ 3 := by
    rw [jsRound_eq]
    have h4 : ⌊((v * 2 - 1) * 3 + 1/2 : ℚ)⌋ < (4 : Int) :=
      Int.floor_lt.mpr (by push_cast; nlinarith)
    omega
  simp only [jitList, List.mem_cons, List.mem_singleton]
  omega

/-- Shape of a reading emitted by `sampleOne`: its timestamp is the
jittered nominal instant and its `impactG` comes from `generateImpactG`
at that timestamp. -/
theorem sampleOne_eq_some (fns : RealFns) (cfg : GenConfig) (startMs endMs : Int)
    (leg : Leg) (legMins steps : Int) (gpsPts : List GeoPt) (s : Nat) (pct : ℚ)
    (i : Nat) {r : Reading}
    (h : (sampleOne fns cfg startMs endMs leg legMins steps gpsPts s pct i).1 = some r) :
    r.tsMs = addMinutesMs (nominalMs leg legMins steps i)
        (jsRound (((mulberryStep s).1 * 2 - 1) * cfg.sampleJitterMinutes)) ∧
    r.impactG = (generateImpactG r.tsMs leg.ty cfg.impactThresholdG
        (generateSensors fns r.tsMs leg.ty (mulberryStep s).2).2).1 := by
  dsimp only [sampleOne] at h
  split at h
  · exact absurd h (by simp)
  · injection h with h
    subst h
    exact ⟨rfl, rfl⟩

/-- Inversion for the inner sampling loop: every emitted reading comes
from `sampleOne` at some index of the list and some intermediate state. -/
theorem mem_sampleAux (fns : RealFns) (cfg : GenConfig) (startMs endMs : Int)
    (leg : Leg) (legMins steps : Int) (gpsPts : List GeoPt) :
    ∀ (il : List Nat) (s : Nat) (pct : ℚ) (r : Reading),
    r ∈ (sampleAux fns cfg startMs endMs leg legMins steps gpsPts il s pct).1 →
    ∃ i ∈ il, ∃ (s' : Nat) (pct' : ℚ),
      (sampleOne fns cfg startMs endMs leg legMins steps gpsPts s' pct' i).1 = some r
  | [], s, pct, r, h => absurd h (by simp [sampleAux])
  | i :: rest, s, pct, r, h => by
    rw [sampleAux] at h
    rcases hEq : (sampleOne fns cfg startMs endMs leg legMins steps gpsPts s pct i).1 with
      _ | r0
    · rw [hEq] at h
      obtain ⟨i', hi', s', pct', hsome⟩ :=
        mem_sampleAux fns cfg startMs endMs leg legMins steps gpsPts rest _ _ r h
      exact ⟨i', List.mem_cons_of_mem _ hi', s', pct', hsome⟩
    · rw [hEq] at h
      rcases List.mem_cons.mp h with h | h
      · subst h
        exact ⟨i, List.mem_cons_self _ _, s, pct, hEq⟩
      · obtain ⟨i', hi', s', pct', hsome⟩ :=
          mem_sampleAux fns cfg startMs endMs leg legMins steps gpsPts rest _ _ r h
        exact ⟨i', List.mem_cons_of_mem _ hi', s', pct', hsome⟩

/-- Inversion for the leg loop: every generated reading comes from some
leg of the timeline. -/
theorem mem_genAux (fns : RealFns) (cfg : GenConfig) (startMs endMs : Int) :
    ∀ (legs : List Leg) (s : Nat) (pct : ℚ) (r : Reading),
    r ∈ genAux fns cfg startMs endMs legs s pct →
    ∃ leg ∈ legs, ∃ (s' : Nat) (pct' : ℚ),
      r ∈ (legOut fns cfg startMs endMs s' pct' leg).1
  | [], _, _, r, h => absurd h (by simp [genAux])
  | leg :: rest, s, pct, r, h => by
    rw [genAux] at h
    rcases List.mem_append.mp h with h | h
    · exact ⟨leg, List.mem_cons_self _ _, s, pct, h⟩
    · obtain ⟨leg', hleg', s', pct', hmem⟩ :=
        mem_genAux fns cfg startMs endMs rest _ _ r h
      exact ⟨leg', List.mem_cons_of_mem _ hleg', s', pct', hmem⟩

/-- Impact dichotomy: when neither the bump nor an aftershock offset is
hit, `generateImpactG` yields either the near-zero baseline (< 2) or the
severe drop (≥ 7.8). -/
theorem generateImpactG_baseline_or_drop (tsMs : Int) (ty : LegType) (thr : ℚ)
    (s : Nat)
    (hB : ¬(ty.isStop = true ∧ (minuteOfDay tsMs).emod 240 = 20))
    (hA1 : ¬(ty = LegType.tilburg_to_budapest ∧ (minuteOfDay tsMs).emod 1440 = 41))
    (hA2 : ¬(ty = LegType.tilburg_to_budapest ∧ (minuteOfDay tsMs).emod 1440 = 71)) :
    (generateImpactG tsMs ty thr s).1 < 2 ∨ (39/5 : ℚ) ≤ (generateImpactG tsMs ty thr s).1 := by
  dsimp only [generateImpactG]
  rw [if_neg hB, if_neg hA1, if_neg hA2]
  split
  · right
    have hv0 := mulberryStep_val_nonneg (mulberryStep s).2
    have h78 : (39/5 : ℚ) ≤ 7.8 + (mulberryStep (mulberryStep s).2).1 * 1.8 := by
      nlinarith [mulberryStep_val_nonneg (mulberryStep s).2]
    have hc : toFixedQ 2 (39/5 : ℚ) = 39/5 := by with_unfolding_all decide
    calc (39/5 : ℚ) = toFixedQ 2 (39/5) := hc.symm
      _ ≤ _ := toFixedQ_le_toFixedQ h78
  · left
    have hv1 := mulberryStep_val_lt_one s
    have hbase : (0.02 + (mulberryStep s).1 * 0.08 : ℚ) ≤ 1/10 := by nlinarith
    have hc : toFixedQ 2 (1/10 : ℚ) = 1/10 := by with_unfolding_all decide
    calc toFixedQ 2 (0.02 + (mulberryStep s).1 * 0.08)
        ≤ toFixedQ 2 (1/10) := toFixedQ_le_toFixedQ hbase
      _ = 1/10 := hc
      _ < 2 := by norm_num

/-- C6 bridging lemma: with the default jitter bound 3 and a
minute-safe timeline, every generated reading's `impactG` is below 2 or
at least 7.8. -/
theorem impactG_of_minuteSafe (fns : RealFns) (cfg : GenConfig) (nowMs : Int)
    (hJ : cfg.sampleJitterMinutes = 3)
    (hSafe : minuteSafe cfg (resolveStart cfg nowMs) = true) :
    ∀ r ∈ generateMockData fns cfg nowMs,
      r.impactG < 2 ∨ (39/5 : ℚ) ≤ r.impactG := by
  intro r hr
  rw [generateMockData, List.mem_insertionSort] at hr
  obtain ⟨leg, hleg, s1, pct1, hmem⟩ :=
    mem_genAux fns cfg (resolveStart cfg nowMs)
      (resolveStart cfg nowMs + cfg.days * 86400000)
      (buildCycleTimeline (resolveStart cfg nowMs) cfg.days) _ _ r hr
  obtain ⟨i, hi, s2, pct2, hsome⟩ :=
    mem_sampleAux fns cfg (resolveStart cfg nowMs)
      (resolveStart cfg nowMs + cfg.days * 86400000) leg (legMinutes leg)
      (legSteps cfg (legMinutes leg)) _ _ _ _ r hmem
  obtain ⟨hts, himp⟩ := sampleOne_eq_some fns cfg _ _ leg _ _ _ s2 pct2 i hsome
  have hv0 := mulberryStep_val_nonneg s2
  have hv1 := mulberryStep_val_lt_one s2
  have hjit : jsRound (((mulberryStep s2).1 * 2 - 1) * cfg.sampleJitterMinutes) ∈ jitList := by
    rw [hJ]
    exact jsRound_jitter_mem _ hv0 hv1
  have hlegSafe : legSafe cfg leg = true := List.all_eq_true.mp hSafe leg hleg
  have hinner := List.all_eq_true.mp (List.all_eq_true.mp hlegSafe i hi) _ hjit
  rw [← hts] at hinner
  obtain ⟨hB, hA1, hA2⟩ := sampleMinuteFree_spec hinner
  rw [himp]
  exact generateImpactG_baseline_or_drop _ _ _ _ hB hA1 hA2

/-- The C6 scenario configuration: 60 days for tracking code CS-DEMO at
threshold 2.0, with the concrete start instant 1970-01-01T06:55:00Z
(6 h 55 min after the epoch; the start instant defaults to the wall
clock in the source, so the scenario's outcome depends on it). -/
def csDemo60 : GenConfig := { days := 60, startDate := some 24900000 }

/-- C6 (counterexample): for the 60-day CS-DEMO generation at threshold
2.0 started at 1970-01-01T06:55:00Z, no reading at all has `impactG` in
`[2, 3)` — in particular no load/unload-stop reading does, so the claimed
scripted moderate bump does not occur.  (At this start instant no
stop-leg sample can hit minute 20 mod 240 and no outbound long-haul
sample can hit the aftershock minutes 41/71, whatever the jitter.) -/
theorem csDemo60_no_impact_in_two_three :
    (generateMockData approxFns csDemo60 0).all
      (fun r => !(decide ((2 : ℚ) ≤ r.impactG) && decide (r.impactG < 3))) = true := by
  refine List.all_eq_true.mpr ?_
  intro r hr
  have h := impactG_of_minuteSafe approxFns csDemo60 0 rfl
    (by with_unfolding_all rfl) r hr
  simp only [Bool.not_eq_true', Bool.and_eq_false_iff, decide_eq_false_iff_not, not_le,
    not_lt]
  rcases h with h | h
  · exact Or.inl h
  · exact Or.inr (le_trans (by norm_num) h)

/-- C6 (amended): whenever a stop-leg sample's timestamp has
minute-of-day congruent to 20 mod 240, its scripted bump fires and the
resulting `impactG` at threshold 2.0 lies in `[2, 3)` (concretely in
`[2.35, 2.55]`).  Together with `csDemo60_no_impact_in_two_three`: the
scripted events are conditional on exact minute hits, which the claimed
scenario start instant need not produce. -/
theorem generateImpactG_stop_bump (tsMs : Int) (ty : LegType) (s : Nat)
    (hstop : ty.isStop = true) (hm : (minuteOfDay tsMs).emod 240 = 20) :
    (2 : ℚ) ≤ (generateImpactG tsMs ty 2 s).1 ∧ (generateImpactG tsMs ty 2 s).1 < 3 := by
  have hne : ty ≠ LegType.tilburg_to_budapest := by
    cases ty <;> simp_all [LegType.isStop]
  dsimp only [generateImpactG]
  rw [if_neg (fun h => hne h.1), if_neg (fun h => hne h.1), if_neg (fun h => hne h.1),
    if_pos ⟨hstop, hm⟩]
  dsimp only
  have hv0 := mulberryStep_val_nonneg (mulberryStep s).2
  have hv1 := mulberryStep_val_lt_one (mulberryStep s).2
  constructor
  · have hlow : (47/20 : ℚ) ≤ 2 + 0.35 + (mulberryStep (mulberryStep s).2).1 * 0.2 := by
      nlinarith
    have hc : toFixedQ 2 (47/20 : ℚ) = 47/20 := by with_unfolding_all decide
    calc (2 : ℚ) ≤ 47/20 := by norm_num
      _ = toFixedQ 2 (47/20) := hc.symm
      _ ≤ _ := toFixedQ_le_toFixedQ hlow
  · have hhigh : (2 + 0.35 + (mulberryStep (mulberryStep s).2).1 * 0.2 : ℚ) ≤ 51/20 := by
      nlinarith
    have hc : toFixedQ 2 (51/20 : ℚ) = 51/20 := by with_unfolding_all decide
    calc toFixedQ 2 (2 + 0.35 + (mulberryStep (mulberryStep s).2).1 * 0.2)
        ≤ toFixedQ 2 (51/20) := toFixedQ_le_toFixedQ hhigh
      _ = 51/20 := hc
      _ < 3 := by norm_num

/-- Witness for C6 (amended) at a concrete instant with minute-of-day 20
inside a stop leg. -/
theorem generateImpactG_stop_bump_witness :
    LegType.stop_tilburg.isStop = true ∧ (minuteOfDay 1200000).emod 240 = 20 ∧
      ((2 : ℚ) ≤ (generateImpactG 1200000 LegType.stop_tilburg 2 0).1 ∧
        (generateImpactG 1200000 LegType.stop_tilburg 2 0).1 < 3) :=
  ⟨rfl, by with_unfolding_all decide,
    generateImpactG_stop_bump 1200000 LegType.stop_tilburg 0 rfl
      (by with_unfolding_all decide)⟩

/-- C7 (counterexample): a route of 5 points where only the 3rd point's
`impactG` meets the threshold yields 2 segments, not 3: the trailing cold
edge is folded into the closing hot segment (the transition point is
pushed into the segment being closed), and the final one-point segment
is dropped.  Concretely at threshold 2 with `impactG` values
0, 0, 5, 0, 0. -/
theorem chunkByImpact_five_single_hot_not_three :
    (chunkByImpact
        [⟨0, 0, 0⟩, ⟨0, 1, 0⟩, ⟨0, 2, 5⟩, ⟨0, 3, 0⟩, ⟨0, 4, 0⟩] 2).length = 2 ∧
      (chunkByImpact
        [⟨0, 0, 0⟩, ⟨0, 1, 0⟩, ⟨0, 2, 5⟩, ⟨0, 3, 0⟩, ⟨0, 4, 0⟩] 2).length ≠ 3 := by
  constructor <;> with_unfolding_all decide

/-- C7 (amended): for any 5 points where only the 3rd meets the
threshold, `chunkByImpact` returns exactly 2 segments — a cold segment
over points 1-3 and a hot segment over points 3-5 — sharing the 3rd
point, so the polyline is gap-free but the claimed trailing cold segment
does not exist. -/
theorem chunkByImpact_five_single_hot (p0 p1 p2 p3 p4 : MapPt) (thr : ℚ)
    (h0 : p0.impactG < thr) (h1 : p1.impactG < thr) (h2 : thr ≤ p2.impactG)
    (h3 : p3.impactG < thr) (h4 : p4.impactG < thr) :
    chunkByImpact [p0, p1, p2, p3, p4] thr =
      [⟨false, [(p0.lat, p0.lon), (p1.lat, p1.lon), (p2.lat, p2.lon)]⟩,
       ⟨true, [(p2.lat, p2.lon), (p3.lat, p3.lon), (p4.lat, p4.lon)]⟩] := by
  have d0 : decide (thr ≤ p0.impactG) = false := decide_eq_false (not_le.mpr h0)
  have d1 : decide (thr ≤ p1.impactG) = false := decide_eq_false (not_le.mpr h1)
  have d2 : decide (thr ≤ p2.impactG) = true := decide_eq_true h2
  have d3 : decide (thr ≤ p3.impactG) = false := decide_eq_false (not_le.mpr h3)
  have d4 : decide (thr ≤ p4.impactG) = false := decide_eq_false (not_le.mpr h4)
  simp only [chunkByImpact, chunkAux, d0, d1, d2, d3, d4, Bool.or_self, Bool.false_or,
    Bool.or_false, ne_eq, Bool.true_eq_false, Bool.false_eq_true, not_false_eq_true,
    not_true_eq_false, if_true, if_false, ite_true, ite_false, List.cons_append,
    List.nil_append, List.length_cons, List.length_nil, List.singleton_append,
    Nat.reduceAdd, Nat.reduceLeDiff, decide_True, decide_False]

/-- Witness for C7 (amended) at concrete points with `impactG` values
0, 0, 9, 1, 1 and threshold 3. -/
theorem chunkByImpact_five_single_hot_witness :
    chunkByImpact
        [⟨10, 0, 0⟩, ⟨11, 0, 0⟩, ⟨12, 0, 9⟩, ⟨13, 0, 1⟩, ⟨14, 0, 1⟩] 3 =
      [⟨false, [(10, 0), (11, 0), (12, 0)]⟩, ⟨true, [(12, 0), (13, 0), (14, 0)]⟩] :=
  chunkByImpact_five_single_hot ⟨10, 0, 0⟩ ⟨11, 0, 0⟩ ⟨12, 0, 9⟩ ⟨13, 0, 1⟩ ⟨14, 0, 1⟩ 3
    (by with_unfolding_all decide) (by with_unfolding_all decide)
    (by with_unfolding_all decide) (by with_unfolding_all decide)
    (by with_unfolding_all decide)

/-- A concrete reading (timestamp 2026-02-19T12:00:45.678Z) used to
exhibit the precision of the CSV `ts` field. -/
def rIso : Reading :=
  { tsMs := 1771502445678, trackingCode := "CS-DEMO", lat := 0, lon := 0, tempC := 0,
    rhPct := 0, impactG := 0, vibrationRms := 0, vibrationHz := 0, batteryPct := 0,
    batteryV := 0 }

/-- C9 (counterexample): the `ts` field of a CSV data row keeps
millisecond precision (`Date.prototype.toISOString` always emits
`.sssZ`), not the claimed second precision: the row for a reading at
2026-02-19T12:00:45.678Z carries `.678` and differs from the
second-precision serialisation. -/
theorem csvRow_not_second_precision :
    csvRow (fun _ => "0") rIso = "2026-02-19T12:00:45.678Z,0,0,0,0,0,0,0,0,0" ∧
      csvRow (fun _ => "0") rIso ≠ "2026-02-19T12:00:45Z,0,0,0,0,0,0,0,0,0" := by
  constructor
  · with_unfolding_all rfl
  · with_unfolding_all decide

/-- C9 (amended): `toCsv` emits exactly the claimed header followed by
one data row per reading in the claimed field order, but the `ts` field
is an ISO-8601 instant with millisecond (not second) precision and a
literal `Z`: two instants one millisecond apart within the same second
serialise differently. -/
theorem toCsv_format (numStr : ℚ → String) (rows : List Reading) :
    toCsvLines numStr rows =
      "ts,lat,lon,tempC,rhPct,impactG,vibrationRms,vibrationHz,batteryPct,batteryV" ::
        rows.map (csvRow numStr) ∧
      toCsv numStr rows = String.intercalate "\n" (toCsvLines numStr rows) ∧
      toIsoString 1771502445678 = "2026-02-19T12:00:45.678Z" ∧
      toIsoString 1771502445679 = "2026-02-19T12:00:45.679Z" := by
  refine ⟨?_, rfl, by with_unfolding_all rfl, by with_unfolding_all rfl⟩
  have h : csvHeader =
      "ts,lat,lon,tempC,rhPct,impactG,vibrationRms,vibrationHz,batteryPct,batteryV" := by
    with_unfolding_all rfl
  rw [toCsvLines, h]

/-! ### C4, C5 — the bucketed downsample -/

theorem mem_dedupF {α : Type} [DecidableEq α] (seen l : List α) (x : α) :
    x ∈ dedupF seen l ↔ x ∈ l ∧ x ∉ seen := by
  induction l generalizing seen with
  | nil => simp [dedupF]
  | cons a t ih =>
    rw [dedupF]
    split
    · rename_i ha
      rw [ih]
      constructor
      · rintro ⟨hxt, hxs⟩
        exact ⟨List.mem_cons_of_mem a hxt, hxs⟩
      · rintro ⟨hx, hxs⟩
        rcases List.mem_cons.mp hx with h | h
        · exact absurd (h ▸ ha) hxs
        · exact ⟨h, hxs⟩
    · rename_i ha
      rw [List.mem_cons, ih]
      constructor
      · rintro (h | ⟨hxt, hxs⟩)
        · exact ⟨h ▸ List.mem_cons_self a t, h ▸ ha⟩
        · exact ⟨List.mem_cons_of_mem a hxt,
            fun hs => hxs (List.mem_cons_of_mem a hs)⟩
      · rintro ⟨hx, hxs⟩
        by_cases hxa : x = a
        · exact Or.inl hxa
        · exact Or.inr ⟨(List.mem_cons.mp hx).resolve_left hxa,
            fun hmem => (List.mem_cons.mp hmem).elim hxa hxs⟩

theorem dedupF_nodup {α : Type} [DecidableEq α] (seen l : List α) :
    (dedupF seen l).Nodup := by
  induction l generalizing seen with
  | nil => simp [dedupF]
  | cons a t ih =>
    rw [dedupF]
    split
    · exact ih seen
    · exact List.nodup_cons.mpr
        ⟨fun hmem => ((mem_dedupF (a :: seen) t a).mp hmem).2 (List.mem_cons_self a seen),
         ih (a :: seen)⟩

theorem dedupF_length_le {α : Type} [DecidableEq α] (seen l : List α) :
    (dedupF seen l).length ≤ l.length := by
  induction l generalizing seen with
  | nil => simp [dedupF]
  | cons a t ih =>
    rw [dedupF]
    split
    · exact le_trans (ih seen) (Nat.le_succ _)
    · simpa using ih (a :: seen)

theorem pick3_length_le (arr : List DSReading) : (pick3 arr).length ≤ 3 := by
  cases arr <;> simp [pick3]

theorem flatMap_pick3_length (bs : List (List DSReading)) :
    (bs.flatMap pick3).length ≤ 3 * bs.length := by
  induction bs with
  | nil => simp
  | cons b t ih =>
    rw [List.flatMap_cons, List.length_append, List.length_cons, Nat.mul_succ]
    have := pick3_length_le b
    omega

theorem pairwise_headD_le {l : List DSReading} (hs : l.Pairwise dsLe) :
    ∀ r ∈ l, (l.headD default).tsMs ≤ r.tsMs := by
  cases l with
  | nil => intro r hr; simp at hr
  | cons a t =>
    intro r hr
    rcases List.mem_cons.mp hr with h | h
    · rw [h, List.headD_cons]
    · exact (List.pairwise_cons.mp hs).1 r h

theorem pairwise_le_getLast? :
    ∀ (l : List DSReading), l.Pairwise dsLe → ∀ z, l.getLast? = some z →
      ∀ r ∈ l, r.tsMs ≤ z.tsMs := by
  intro l
  induction l with
  | nil => intro _ z hz; simp at hz
  | cons a t ih =>
    intro hs z hz r hr
    cases t with
    | nil =>
      rcases List.mem_cons.mp hr with h | h
      · simp only [List.getLast?_singleton, Option.some.injEq] at hz
        rw [h, hz]
      · simp at h
    | cons b t2 =>
      have hz2 : (b :: t2).getLast? = some z := by
        rw [List.getLast?_cons_cons] at hz
        exact hz
      have hp := List.pairwise_cons.mp hs
      rcases List.mem_cons.mp hr with h | h
      · rw [h]
        exact hp.1 z (List.mem_of_getLast?_eq_some hz2)
      · exact ih hp.2 z hz2 r h

theorem dsBucketMs_pos (readings : List DSReading) (maxPoints : Int)
    (hmp : 1 ≤ maxPoints) (hn : 1 ≤ (readings.length : Int)) :
    0 < dsBucketMs readings maxPoints := by
  rw [dsBucketMs_eq]
  refine Int.ceil_pos.mpr (div_pos ?_ ?_)
  · have h1 : (0 : Int) < dsSpan readings :=
      lt_of_lt_of_le one_pos (le_max_left 1 _)
    exact_mod_cast h1
  · have h1 : (0 : Int) < dsBucketCount readings maxPoints :=
      lt_of_lt_of_le one_pos (le_min hmp hn)
    exact_mod_cast h1

theorem dsKey_bounds (readings : List DSReading) (maxPoints : Int)
    (hmp : 1 ≤ maxPoints) (r : DSReading) (hr : r ∈ dsSorted readings) :
    0 ≤ dsKey readings maxPoints r ∧
      dsKey readings maxPoints r ≤ dsBucketCount readings maxPoints := by
  have hn : 1 ≤ (readings.length : Int) := by
    have he : (dsSorted readings).length = readings.length :=
      (List.perm_insertionSort dsLe readings).length_eq
    have hpos : 0 < (dsSorted readings).length := List.length_pos_of_mem hr
    omega
  have hbm := dsBucketMs_pos readings maxPoints hmp hn
  have hbmq : (0 : ℚ) < (dsBucketMs readings maxPoints : ℚ) := by exact_mod_cast hbm
  have hpair : (dsSorted readings).Pairwise dsLe := List.sorted_insertionSort dsLe readings
  have hstart : dsStart readings ≤ r.tsMs := pairwise_headD_le hpair r hr
  have hne : dsSorted readings ≠ [] := List.ne_nil_of_mem hr
  obtain ⟨z, hz⟩ := Option.isSome_iff_exists.mp (List.getLast?_isSome.mpr hne)
  have hend : r.tsMs ≤ ((dsSorted readings).getLastD default).tsMs := by
    rw [List.getLastD_eq_getLast?, hz]
    exact pairwise_le_getLast? _ hpair z hz r hr
  have hspan : r.tsMs - dsStart readings ≤ dsSpan readings :=
    le_trans (sub_le_sub_right hend (dsStart readings)) (le_max_right 1 _)
  constructor
  · rw [dsKey_eq]
    refine Int.floor_nonneg.mpr (div_nonneg ?_ (le_of_lt hbmq))
    exact_mod_cast sub_nonneg.mpr hstart
  · rw [dsKey_eq]
    have hq : ((r.tsMs - dsStart readings : Int) : ℚ) /
        (dsBucketMs readings maxPoints : ℚ) ≤ (dsBucketCount readings maxPoints : ℚ) := by
      rw [div_le_iff hbmq]
      have hcpos : (0 : ℚ) < (dsBucketCount readings maxPoints : ℚ) := by
        have h1 : (0 : Int) < dsBucketCount readings maxPoints :=
          lt_of_lt_of_le one_pos (le_min hmp hn)
        exact_mod_cast h1
      have hceil : ((dsSpan readings : Int) : ℚ) /
          (dsBucketCount readings maxPoints : ℚ) ≤ (dsBucketMs readings maxPoints : ℚ) := by
        rw [dsBucketMs_eq]
        exact_mod_cast Int.le_ceil _
      rw [div_le_iff hcpos] at hceil
      have hsq : ((r.tsMs - dsStart readings : Int) : ℚ) ≤ ((dsSpan readings : Int) : ℚ) := by
        exact_mod_cast hspan
      calc ((r.tsMs - dsStart readings : Int) : ℚ) ≤ ((dsSpan readings : Int) : ℚ) := hsq
        _ ≤ (dsBucketMs readings maxPoints : ℚ) * (dsBucketCount readings maxPoints : ℚ) :=
          hceil
        _ = (dsBucketCount readings maxPoints : ℚ) * (dsBucketMs readings maxPoints : ℚ) :=
          mul_comm _ _
    exact le_trans (Int.floor_le_floor hq) (le_of_eq (Int.floor_intCast _))

theorem dsBuckets_length_le (readings : List DSReading) (maxPoints : Int)
    (hmp : 1 ≤ maxPoints) :
    ((dsBuckets readings maxPoints).length : Int) ≤
      dsBucketCount readings maxPoints + 1 ∨ readings = [] := by
  cases readings with
  | nil => exact Or.inr rfl
  | cons a t =>
    left
    rw [dsBuckets, List.length_map]
    have hnd : (dedupF [] ((dsSorted (a :: t)).map (dsKey (a :: t) maxPoints))).Nodup :=
      dedupF_nodup _ _
    have hsub : (dedupF [] ((dsSorted (a :: t)).map (dsKey (a :: t) maxPoints))).toFinset ⊆
        Finset.Icc 0 (dsBucketCount (a :: t) maxPoints) := by
      intro k hk
      rw [List.mem_toFinset] at hk
      have hk2 := ((mem_dedupF [] _ k).mp hk).1
      rw [List.mem_map] at hk2
      obtain ⟨r, hr, hkr⟩ := hk2
      have hb := dsKey_bounds (a :: t) maxPoints hmp r hr
      rw [Finset.mem_Icc, ← hkr]
      exact hb
    have hcard := Finset.card_le_card hsub
    rw [List.toFinset_card_of_nodup hnd, Int.card_Icc] at hcard
    have hc1 : (1 : Int) ≤ dsBucketCount (a :: t) maxPoints := by
      refine le_min hmp ?_
      have : 0 < (a :: t).length := Nat.succ_pos _
      omega
    omega

/-- The input of the C4 counterexample: four readings spanning three
minutes, the second carrying the impact spike. -/
def ds4 : List DSReading :=
  [⟨0, 0, 0, 0, 0⟩, ⟨60, 0, 0, 5, 0⟩, ⟨120, 0, 0, 1, 0⟩, ⟨180, 0, 0, 0, 0⟩]

/-- The input of the C4 duplicate-timestamp counterexample: two distinct
readings share timestamp 0. -/
def ds3 : List DSReading :=
  [⟨0, 0, 0, 0, 0⟩, ⟨0, 1, 0, 0, 0⟩, ⟨180, 0, 0, 0, 0⟩]

/-- C4 (counterexample): with `maxPoints = 1` the four-element input
`ds4` downsamples to 4 readings, violating the claimed bound
`3 × min(maxPoints, n) = 3` (the key range is `0..bucketCount`, one more
bucket than claimed); and the three-element input `ds3`, holding two
distinct readings at the same timestamp, downsamples to an output with
timestamp 0 twice — the output can contain duplicate timestamps (the
de-duplication keys on the whole value tuple, not on the timestamp). -/
theorem downsample_violates_claimed_bound :
    ¬(((downsample ds4 1).length : Int) ≤ 3 * min 1 (ds4.length : Int)) ∧
      (downsample ds3 1).map DSReading.tsMs = [0, 0, 180] := by
  constructor
  · have h4 : (downsample ds4 1).length = 4 := by with_unfolding_all rfl
    have hl : ds4.length = 4 := by with_unfolding_all rfl
    rw [h4, hl]
    decide
  · with_unfolding_all rfl

/-- C4 (amended): for `maxPoints ≥ 1`, an input of length at most
`maxPoints` is returned unchanged; a longer input of length `n`
downsamples to at most `3 × (min(maxPoints, n) + 1)` readings (not
`3 × min(maxPoints, n)`: bucket keys range over `0..bucketCount`
inclusive), sorted non-decreasing by timestamp and with no duplicate
readings (duplicate timestamps remain possible, see the
counterexample). -/
theorem downsample_spec (readings : List DSReading) (maxPoints : Int)
    (hmp : 1 ≤ maxPoints) :
    ((readings.length : Int) ≤ maxPoints → downsample readings maxPoints = readings) ∧
      (maxPoints < (readings.length : Int) →
        ((downsample readings maxPoints).length : Int) ≤
            3 * (min maxPoints (readings.length : Int) + 1) ∧
          (downsample readings maxPoints).Pairwise dsLe ∧
          (downsample readings maxPoints).Nodup) := by
  constructor
  · intro hle
    rw [downsample, if_pos hle]
  · intro hlt
    rw [downsample, if_neg (not_le.mpr hlt)]
    refine ⟨?_, List.sorted_insertionSort dsLe _, ?_⟩
    · have e1 : ((dedupF [] ((dsBuckets readings maxPoints).flatMap pick3)).insertionSort
          dsLe).length = (dedupF [] ((dsBuckets readings maxPoints).flatMap pick3)).length :=
        (List.perm_insertionSort dsLe _).length_eq
      have e2 := dedupF_length_le ([] : List DSReading)
        ((dsBuckets readings maxPoints).flatMap pick3)
      have e3 := flatMap_pick3_length (dsBuckets readings maxPoints)
      have e4 := dsBuckets_length_le readings maxPoints hmp
      have hne : readings ≠ [] := by
        intro h
        rw [h] at hlt
        simp at hlt
        omega
      rcases e4 with e4 | e4
      · rw [dsBucketCount] at e4
        omega
      · exact absurd e4 hne
    · exact ((List.perm_insertionSort dsLe _).nodup_iff).mpr (dedupF_nodup _ _)

/-- Witness for C4 (amended) at the concrete input `ds4` with
`maxPoints = 1`. -/
theorem downsample_spec_witness :
    (1 : Int) ≤ 1 ∧
      (((ds4.length : Int) ≤ 1 → downsample ds4 1 = ds4) ∧
        ((1 : Int) < (ds4.length : Int) →
          ((downsample ds4 1).length : Int) ≤ 3 * (min 1 (ds4.length : Int) + 1) ∧
            (downsample ds4 1).Pairwise dsLe ∧ (downsample ds4 1).Nodup)) :=
  ⟨by decide, downsample_spec ds4 1 (by decide)⟩

/-! The spike-preservation claim (C5). -/

theorem maxImpact_cons (m c : DSReading) (t : List DSReading) :
    maxImpact m (c :: t) = maxImpact (if m.impactG < c.impactG then c else m) t := rfl

theorem maxImpact_mem (arr : List DSReading) : ∀ m, maxImpact m arr ∈ m :: arr := by
  induction arr with
  | nil => intro m; simp [maxImpact]
  | cons c t ih =>
    intro m
    rw [maxImpact_cons]
    rcases List.mem_cons.mp (ih (if m.impactG < c.impactG then c else m)) with h | h
    · by_cases hc : m.impactG < c.impactG
      · rw [if_pos hc] at h ⊢
        rw [h]
        exact List.mem_cons_of_mem m (List.mem_cons_self c t)
      · rw [if_neg hc] at h ⊢
        rw [h]
        exact List.mem_cons_self m (c :: t)
    · exact List.mem_cons_of_mem m (List.mem_cons_of_mem c h)

theorem maxImpact_ge (arr : List DSReading) :
    ∀ m, ∀ x ∈ m :: arr, x.impactG ≤ (maxImpact m arr).impactG := by
  induction arr with
  | nil =>
    intro m x hx
    rcases List.mem_cons.mp hx with h | h
    · rw [h]
      exact le_refl _
    · simp at h
  | cons c t ih =>
    intro m x hx
    rw [maxImpact_cons]
    have hm : m.impactG ≤ (if m.impactG < c.impactG then c else m).impactG := by
      split
      · exact le_of_lt (by assumption)
      · exact le_refl _
    have hc : c.impactG ≤ (if m.impactG < c.impactG then c else m).impactG := by
      split
      · exact le_refl _
      · exact le_of_not_lt (by assumption)
    have hrec : (if m.impactG < c.impactG then c else m).impactG ≤
        (maxImpact (if m.impactG < c.impactG then c else m) t).impactG :=
      ih (if m.impactG < c.impactG then c else m)
        (if m.impactG < c.impactG then c else m) (List.mem_cons_self _ t)
    rcases List.mem_cons.mp hx with h | h
    · rw [h]
      exact le_trans hm hrec
    rcases List.mem_cons.mp h with h2 | h2
    · rw [h2]
      exact le_trans hc hrec
    · exact ih (if m.impactG < c.impactG then c else m) x (List.mem_cons_of_mem _ h2)

/-- C5: if a reading's `impactG` strictly dominates every other reading
of its bucket, that reading survives the downsample: it is the bucket's
max-impact pick, membership is preserved by the value-tuple
de-duplication and by the final sort, and in the small-input branch the
input is returned unchanged. -/
theorem downsample_spike_preserved (readings : List DSReading) (maxPoints : Int)
    (b : List DSReading) (hb : b ∈ dsBuckets readings maxPoints)
    (r : DSReading) (hr : r ∈ b)
    (hmax : ∀ x ∈ b, x ≠ r → x.impactG < r.impactG) :
    r ∈ downsample readings maxPoints := by
  have hrs : r ∈ dsSorted readings := by
    rw [dsBuckets, List.mem_map] at hb
    obtain ⟨k, _, hbk⟩ := hb
    rw [← hbk] at hr
    exact List.mem_of_mem_filter hr
  rw [downsample]
  split
  · exact (List.mem_insertionSort dsLe).mp hrs
  · rw [List.mem_insertionSort, mem_dedupF]
    refine ⟨?_, List.not_mem_nil r⟩
    rw [List.mem_flatMap]
    refine ⟨b, ?_, ?_⟩
    · rw [dsBuckets, List.mem_map] at hb ⊢
      exact hb
    · cases b with
      | nil => exact absurd hr (List.not_mem_nil r)
      | cons a t =>
        have hMmem : maxImpact a (a :: t) ∈ a :: t := by
          rcases List.mem_cons.mp (maxImpact_mem (a :: t) a) with h | h
          · rw [h]
            exact List.mem_cons_self a t
          · exact h
        have hMr : maxImpact a (a :: t) = r := by
          by_contra hMne
          have h1 := hmax _ hMmem hMne
          have h2 := maxImpact_ge (a :: t) a r (List.mem_cons_of_mem a hr)
          exact absurd h1 (not_lt.mpr h2)
        rw [pick3, hMr]
        exact List.mem_cons_of_mem a (List.mem_cons_self r _)

/-- The input of the C5 witness: the second reading is the strict
impact maximum of the first bucket. -/
def ds5 : List DSReading :=
  [⟨0, 0, 0, 0, 0⟩, ⟨60, 0, 0, 7, 0⟩, ⟨120, 0, 0, 1, 0⟩, ⟨180, 0, 0, 0, 0⟩]

/-- The first bucket of `ds5` at `maxPoints = 1` (keys 0, 0, 0, 1). -/
def b5 : List DSReading := [⟨0, 0, 0, 0, 0⟩, ⟨60, 0, 0, 7, 0⟩, ⟨120, 0, 0, 1, 0⟩]

/-- The strict-maximum reading of the bucket `b5`. -/
def spiky : DSReading := ⟨60, 0, 0, 7, 0⟩

/-- Witness for C5 at the concrete input `ds5` with `maxPoints = 1`. -/
theorem downsample_spike_preserved_witness :
    b5 ∈ dsBuckets ds5 1 ∧ spiky ∈ b5 ∧
      (∀ x ∈ b5, x ≠ spiky → x.impactG < spiky.impactG) ∧
      spiky ∈ downsample ds5 1 := by
  have hbuckets : dsBuckets ds5 1 = [b5, [⟨180, 0, 0, 0, 0⟩]] := by
    with_unfolding_all rfl
  have hb : b5 ∈ dsBuckets ds5 1 := by
    rw [hbuckets]
    exact List.mem_cons_self _ _
  have hr : spiky ∈ b5 := List.mem_cons_of_mem _ (List.mem_cons_self _ _)
  have hmax : ∀ x ∈ b5, x ≠ spiky → x.impactG < spiky.impactG := by
    intro x hx hne
    rcases List.mem_cons.mp hx with h | h
    · rw [h]
      with_unfolding_all decide
    rcases List.mem_cons.mp h with h2 | h2
    · exact absurd h2 hne
    rcases List.mem_cons.mp h2 with h3 | h3
    · rw [h3]
      with_unfolding_all decide
    · exact absurd h3 (List.not_mem_nil x)
  exact ⟨hb, hr, hmax, downsample_spike_preserved ds5 1 b5 hb spiky hr hmax⟩

end Cargo
